import Mathlib

/-!
# Expense approval workflow

A shallow embedding of the approval workflow of the expense manager:

* `server/models/Expense.js`       the expense document and its `approvalFlow`
* `server/models/ApprovalRule.js`  `getApplicableApprovers`, `checkConditionalRules`
* `server/middleware/validation.js` `validateApproval`
* `server/routes/approvals.js`     `PUT /api/approvals/:expenseId`, `PUT /api/approvals/bulk`
* `server/routes/expenses.js`      `POST /api/expenses` (creation routing), `GET`, `PUT` and
  `DELETE /api/expenses`
* `server/middleware/auth.js`      `authorizeExpenseAccess`
* `server/utils/currencyConverter.js` `getExchangeRates`, `convertCurrency`

Object ids are natural numbers, JavaScript numbers are rationals, strings stay strings.

The approval handlers are embedded at two levels. `putApproval`, `bulkItem` and
`putApprovalRoute`, `bulkStep` give the document a handler assigns and hands to `save()`, with
the outcome of `save()` left open. `approvalRequest` and `bulkRequest` give what a request does
to the collection: request validation runs first, and `save()` resolves exactly when the
document passes the validators of the schema (`Expense.validates`).
-/

namespace ExpenseManagement

/-! ## Data model (`models/Expense.js`) -/

/-- One element of `approvalFlow` (`models/Expense.js`, lines 91-105). The sub-schema has
exactly these five paths. -/
structure ApprovalEntry where
  approverId : Nat
  status : String
  comments : Option String
  actionDate : Option Nat
  order : Nat
deriving DecidableEq, Repr

/-- The read `approval.isRequired` of the two approval handlers. The `approvalFlow` sub-schema
declares no `isRequired` path and creation routing writes none, so the read yields `undefined`,
which is falsy. -/
def ApprovalEntry.isRequired (_approval : ApprovalEntry) : Bool := false

/-- The workflow-relevant paths of the expense document (`models/Expense.js`). -/
structure Expense where
  employeeId : Nat
  companyId : Nat
  category : String
  amount : ℚ
  currency : String
  convertedAmount : ℚ
  baseCurrency : String
  exchangeRate : ℚ
  status : String
  approvalFlow : List ApprovalEntry
  currentApprover : Option Nat
  rejectionReason : Option String
deriving DecidableEq, Repr

/-- Schema method `getNextApprover` (`models/Expense.js`, lines 162-167). -/
def Expense.getNextApprover (e : Expense) : Option Nat :=
  (e.approvalFlow.find? (fun approval => approval.status == "pending")).map
    (fun pendingApproval => pendingApproval.approverId)

/-- Schema method `isFullyApproved` (`models/Expense.js`, lines 170-172). -/
def Expense.isFullyApproved (e : Expense) : Bool :=
  e.approvalFlow.all (fun approval => approval.status == "approved")

/-- Schema method `isRejected` (`models/Expense.js`, lines 175-177). -/
def Expense.isRejected (e : Expense) : Bool :=
  e.approvalFlow.any (fun approval => approval.status == "rejected")

/-- The `enum` of `approvalFlow.status` (`models/Expense.js`, lines 97-101). -/
def entryStatusEnum : List String := ["pending", "approved", "rejected"]

/-- The `enum` of the expense `status` (`models/Expense.js`, lines 75-79). -/
def expenseStatusEnum : List String := ["draft", "pending", "approved", "rejected", "cancelled"]

/-- The two `enum` validators of the schema, as they are run on a document. -/
def Expense.enumsHold (e : Expense) : Bool :=
  expenseStatusEnum.contains e.status &&
    e.approvalFlow.all (fun approval => entryStatusEnum.contains approval.status)

/-- The `enum` of `category` (`models/Expense.js`, lines 28-40). -/
def categoryEnum : List String :=
  ["Travel", "Meals", "Accommodation", "Transportation", "Office Supplies", "Software",
    "Training", "Marketing", "Entertainment", "Utilities", "Other"]

/-- The validators of the schema on the modelled paths, which `save()` runs before it writes:
the `enum` of `category`, `min: 0` of `amount`, `required` of `currency` and `baseCurrency` (a
required string path refuses the empty string) and the two status enums. The key `length` of
lines 51 and 61 is no validator of the library and checks nothing. -/
def Expense.validates (e : Expense) : Bool :=
  categoryEnum.contains e.category && decide (0 ≤ e.amount) && e.currency != "" &&
    e.baseCurrency != "" && e.enumsHold

/-! ## Request validation (`middleware/validation.js`) -/

/-- The length `isLength` of the validator library measures: the number of code points of the
string (a surrogate pair counts once) less the variation selectors U+FE0E and U+FE0F, which it
does not count. -/
def isLengthOf (text : String) : Nat :=
  text.length - (text.data.filter (fun c => c.toNat == 0xFE0E || c.toNat == 0xFE0F)).length

/-- The chain `validateApproval` (`middleware/validation.js`, lines 97-107): `action` is one of
`approve`, `reject`; `comments` is optional and `isLength` finds it at most 500 long.
`comments` is the body field after the `trim` sanitizer. -/
def validateApproval (action : String) (comments : Option String) : Bool :=
  ["approve", "reject"].contains action &&
    (match comments with
     | none => true
     | some c => decide (isLengthOf c ≤ 500))

/-! ## Approval action (`routes/approvals.js`) -/

/-- The predicate of `approvalFlow.find` in both handlers (lines 111-114 and 352-355): the entry
belongs to the caller and is still pending. -/
def isUserApproval (userId : Nat) (approval : ApprovalEntry) : Bool :=
  approval.approverId == userId && approval.status == "pending"

/-- In-place update of the element that `Array.prototype.find` returned: the first element
satisfying `p` is replaced by its image under `f`, every other element is kept. -/
def updateFirst {α : Type} (p : α → Bool) (f : α → α) : List α → List α
  | [] => []
  | a :: rest => if p a then f a :: rest else a :: updateFirst p f rest

/-- The three assignments of lines 124-126 (and 363-365) on the entry `userApproval`. -/
def recordAction (action : String) (comments : Option String) (now : Nat)
    (userApproval : ApprovalEntry) : ApprovalEntry :=
  { userApproval with status := action, comments := comments, actionDate := some now }

/-- How a handler run ended. `applied`: the 404 and 403 checks passed, the handler assigned
the document and called `save()` on it. Whether `save()` then resolved is not part of the
verdict. -/
inductive Verdict where
  | notFound
  | notAuthorized
  | applied
deriving DecidableEq, Repr

/-- Result of one handler run: the verdict and the expense document in memory as the handler
leaves it (`none` exactly when `findById` found nothing). For the verdict `applied` this is the
document `save()` is called on, not yet a stored one. -/
structure Handled where
  verdict : Verdict
  expense : Option Expense
deriving DecidableEq, Repr

/-- Lines 123-170 of `routes/approvals.js`, run on a document whose `find` returned
`userApproval`: record the action on that entry, compute `remainingApprovals`, then either take
the final decision or move to the next approver. The result is the document in memory when
line 172 calls `save()`. -/
def applyAction (expense : Expense) (userId : Nat) (userApproval : ApprovalEntry)
    (action : String) (comments : Option String) (now : Nat) : Expense :=
  let acted := recordAction action comments now userApproval
  let flow := updateFirst (isUserApproval userId) (recordAction action comments now)
    expense.approvalFlow
  let remainingApprovals :=
    flow.filter (fun approval => approval.status == "pending" && approval.isRequired)
  if action == "rejected" || remainingApprovals.length == 0 then
    { expense with
      approvalFlow := flow
      status := if action == "approved" then "approved" else "rejected"
      currentApprover := none
      rejectionReason := if action == "rejected" then comments else expense.rejectionReason }
  else
    match flow.find? (fun approval => approval.status == "pending" && approval.order > acted.order) with
    | some nextApproval =>
      { expense with approvalFlow := flow, currentApprover := some nextApproval.approverId }
    | none => { expense with approvalFlow := flow }

/-- The handler of `PUT /api/approvals/:expenseId` (`routes/approvals.js`, lines 95-172), after
its middleware and up to its call of `save()`: `found` is the result of `Expense.findById`,
`userId` is `req.user._id`, `now` is the value of `new Date()`. The outcome of `save()` is
added by `putApprovalRoute` and, with the validators of the schema, by `approvalRequest`. -/
def putApproval (found : Option Expense) (userId : Nat) (action : String)
    (comments : Option String) (now : Nat) : Handled :=
  match found with
  | none => { verdict := Verdict.notFound, expense := none }
  | some expense =>
    match expense.approvalFlow.find? (isUserApproval userId) with
    | none => { verdict := Verdict.notAuthorized, expense := some expense }
    | some userApproval =>
      { verdict := Verdict.applied
        expense := some (applyAction expense userId userApproval action comments now) }

/-- One iteration of the loop of `PUT /api/approvals/bulk` (`routes/approvals.js`,
lines 344-390) up to its `save()`: the same find, assignments and decision as the single
handler, written out a second time in the source. The outcome of `save()` is added by
`bulkStep` and, with the validators of the schema, by `bulkRequest`. -/
def bulkItem (found : Option Expense) (userId : Nat) (action : String)
    (comments : Option String) (now : Nat) : Handled :=
  match found with
  | none => { verdict := Verdict.notFound, expense := none }
  | some expense =>
    match expense.approvalFlow.find? (isUserApproval userId) with
    | none => { verdict := Verdict.notAuthorized, expense := some expense }
    | some userApproval =>
      let flow := updateFirst (isUserApproval userId) (recordAction action comments now)
        expense.approvalFlow
      let remainingApprovals :=
        flow.filter (fun approval => approval.status == "pending" && approval.isRequired)
      if action == "rejected" || remainingApprovals.length == 0 then
        { verdict := Verdict.applied
          expense := some { expense with
            approvalFlow := flow
            status := if action == "approved" then "approved" else "rejected"
            currentApprover := none
            rejectionReason := if action == "rejected" then comments else expense.rejectionReason } }
      else
        match flow.find? (fun approval => approval.status == "pending" &&
            approval.order > (recordAction action comments now userApproval).order) with
        | some nextApproval =>
          { verdict := Verdict.applied
            expense := some { expense with
              approvalFlow := flow, currentApprover := some nextApproval.approverId } }
        | none =>
          { verdict := Verdict.applied, expense := some { expense with approvalFlow := flow } }

/-- The action check of the bulk handler (`routes/approvals.js`, lines 325-337). -/
def bulkRequestValid (expenseIds : List Nat) (action : String) : Bool :=
  !expenseIds.isEmpty && ["approve", "reject"].contains action

/-! ## Approval rules (`models/ApprovalRule.js`) -/

/-- One element of a rule's `approvers` (`models/ApprovalRule.js`, lines 38-61). -/
structure Approver where
  userId : Nat
  role : String
  order : Nat
  isRequired : Bool
  canDelegate : Bool
deriving DecidableEq, Repr

/-- A value of schema type `Mixed` (`conditionalRules.value`): a number, or a string together
with the number JavaScript converts it to in a numeric comparison (`none` for `NaN`). -/
inductive Mixed where
  | number (q : ℚ)
  | string (s : String) (asNumber : Option ℚ)
deriving DecidableEq, Repr

/-- The comparison `amount > value` of JavaScript. -/
def Mixed.lessThan (value : Mixed) (amount : ℚ) : Bool :=
  match value with
  | Mixed.number q => decide (q < amount)
  | Mixed.string _ (some q) => decide (q < amount)
  | Mixed.string _ none => false

/-- The comparison `amount < value` of JavaScript. -/
def Mixed.greaterThan (value : Mixed) (amount : ℚ) : Bool :=
  match value with
  | Mixed.number q => decide (amount < q)
  | Mixed.string _ (some q) => decide (amount < q)
  | Mixed.string _ none => false

/-- The comparison `text === value` of JavaScript for a string `text`. -/
def Mixed.strictEquals (value : Mixed) (text : String) : Bool :=
  match value with
  | Mixed.number _ => false
  | Mixed.string s _ => text == s

/-- One element of `conditionalRules` (`models/ApprovalRule.js`, lines 74-88). -/
structure ConditionalRule where
  condition : String
  value : Mixed
  action : String
  targetApprover : Option Nat
deriving DecidableEq, Repr

/-- The path `conditions` of a rule (`models/ApprovalRule.js`, lines 29-37). -/
structure RuleConditions where
  amountThreshold : ℚ
  categories : List String
  departments : List String
  currencies : List String
deriving DecidableEq, Repr

/-- The path `percentageRules` of a rule (`models/ApprovalRule.js`, lines 62-73). -/
structure PercentageRules where
  minPercentage : ℚ
  requireAll : Bool
deriving DecidableEq, Repr

/-- The approval rule document (`models/ApprovalRule.js`); `id` is its `_id`. -/
structure ApprovalRule where
  id : Nat
  companyId : Nat
  ruleType : String
  isActive : Bool
  conditions : RuleConditions
  approvers : List Approver
  percentageRules : PercentageRules
  conditionalRules : List ConditionalRule
deriving DecidableEq, Repr

/-- Schema method `checkConditionalRules` (`models/ApprovalRule.js`, lines 154-167). The
argument `approver` is not read by the source either. -/
def ApprovalRule.checkConditionalRules (rule : ApprovalRule) (expense : Expense)
    (_approver : Approver) : Bool :=
  rule.conditionalRules.all (fun r =>
    if r.condition == "amount_greater_than" then r.value.lessThan expense.convertedAmount
    else if r.condition == "amount_less_than" then r.value.greaterThan expense.convertedAmount
    else if r.condition == "category_equals" then r.value.strictEquals expense.category
    else true)

/-- Schema method `getApplicableApprovers` (`models/ApprovalRule.js`, lines 122-151).
`Array.prototype.sort` is stable, as is the insertion sort used for it here. -/
def ApprovalRule.getApplicableApprovers (rule : ApprovalRule) (expense : Expense) :
    List Approver :=
  if !rule.isActive then []
  else if rule.conditions.amountThreshold > 0 ∧
      expense.convertedAmount < rule.conditions.amountThreshold then []
  else if rule.conditions.categories.length > 0 ∧
      !rule.conditions.categories.contains expense.category then []
  else if rule.ruleType == "sequential" then
    rule.approvers.insertionSort (fun a b => a.order ≤ b.order)
  else if rule.ruleType == "percentage" then rule.approvers
  else if rule.ruleType == "conditional" then
    rule.approvers.filter (fun approver => rule.checkConditionalRules expense approver)
  else rule.approvers

/-! ## Creation routing (`routes/expenses.js`, `POST /api/expenses`) -/

/-- The object `convertCurrency` resolves to, as far as the handler reads it. -/
structure Conversion where
  convertedAmount : ℚ
  rate : ℚ
deriving DecidableEq, Repr

/-- The call `Expense.create` of lines 143-157: the given paths, and the schema defaults for
the others (`status` is `draft`, `approvalFlow` is empty, `currentApprover` is `null`). -/
def Expense.create (employeeId companyId : Nat) (category : String) (amount : ℚ)
    (currency baseCurrency : String) (conversion : Conversion) : Expense :=
  { employeeId := employeeId
    companyId := companyId
    category := category
    amount := amount
    currency := currency
    convertedAmount := conversion.convertedAmount
    baseCurrency := baseCurrency
    exchangeRate := conversion.rate
    status := "draft"
    approvalFlow := []
    currentApprover := none
    rejectionReason := none }

/-- The query of lines 160-163: the active rules of the company, in storage order. -/
def findActiveRules (stored : List ApprovalRule) (companyId : Nat) : List ApprovalRule :=
  stored.filter (fun rule => rule.companyId == companyId && rule.isActive)

/-- The rule loop of lines 166-173: the approvers of the first rule that yields any. -/
def applicableApprovers (approvalRules : List ApprovalRule) (expense : Expense) :
    List Approver :=
  match approvalRules with
  | [] => []
  | rule :: rest =>
    if (rule.getApplicableApprovers expense).length > 0 then rule.getApplicableApprovers expense
    else applicableApprovers rest expense

/-- Lines 175-194 of `routes/expenses.js`: `approvers` is the list the rule loop ended with,
`autoApprovalLimit` is `company.settings.autoApprovalLimit`. -/
def routeExpense (expense : Expense) (conversion : Conversion)
    (approvers : List Approver) (autoApprovalLimit : ℚ) : Expense :=
  if approvers.length == 0 then
    if conversion.convertedAmount ≤ autoApprovalLimit then
      { expense with status := "approved" }
    else
      { expense with status := "pending" }
  else
    { expense with
      approvalFlow := approvers.mapIdx (fun index approver =>
        { approverId := approver.userId
          order := index + 1
          status := if index == 0 then "pending" else "pending"
          comments := none
          actionDate := none })
      currentApprover := approvers.head?.map (fun approver => approver.userId)
      status := "pending" }

/-- The handler of `POST /api/expenses` from `Expense.create` to the last `save()`
(lines 143-194): `conversion` is what `convertCurrency` resolved to, `stored` the collection of
approval rules. -/
def postExpense (employeeId companyId : Nat) (category : String) (amount : ℚ)
    (currency baseCurrency : String) (conversion : Conversion)
    (stored : List ApprovalRule) (autoApprovalLimit : ℚ) : Expense :=
  let expense := Expense.create employeeId companyId category amount currency baseCurrency
    conversion
  routeExpense expense conversion
    (applicableApprovers (findActiveRules stored companyId) expense) autoApprovalLimit

/-! ## Reachable expense states -/

/-- The documents reachable from the state `start` by approval actions that the handlers
accept: the request passes its validation and the handler gets past its 404 and 403 checks.
Each step goes to the document the handler hands to `save()`, whether or not `save()` takes
it, so these are more documents than the collection ever holds (`StoredReachable`). -/
inductive Reachable (start : Expense) : Expense → Prop where
  | refl : Reachable start start
  | single {e e' : Expense} (userId : Nat) (action : String) (comments : Option String)
      (now : Nat) :
      Reachable start e → validateApproval action comments = true →
      putApproval (some e) userId action comments now =
        { verdict := Verdict.applied, expense := some e' } →
      Reachable start e'
  | bulk {e e' : Expense} (expenseIds : List Nat) (userId : Nat) (action : String)
      (comments : Option String) (now : Nat) :
      Reachable start e → bulkRequestValid expenseIds action = true →
      bulkItem (some e) userId action comments now =
        { verdict := Verdict.applied, expense := some e' } →
      Reachable start e'

/-! ## Sample data -/

/-- The sequential rule `[A:1, B:2, C:3]` of company 7; the users A, B, C have ids 1, 2, 3. -/
def ruleABC : ApprovalRule :=
  { id := 40
    companyId := 7
    ruleType := "sequential"
    isActive := true
    conditions := { amountThreshold := 0, categories := [], departments := [], currencies := [] }
    approvers :=
      [ { userId := 1, role := "manager", order := 1, isRequired := true, canDelegate := false },
        { userId := 2, role := "finance", order := 2, isRequired := true, canDelegate := false },
        { userId := 3, role := "director", order := 3, isRequired := true,
          canDelegate := false } ]
    percentageRules := { minPercentage := 60, requireAll := false }
    conditionalRules := [] }

/-- The expense that creation routing builds from `ruleABC`: an expense of 150 USD of the
employee 9 of company 7, whose auto-approval limit is 100. -/
def sequentialExpense : Expense :=
  postExpense 9 7 "Travel" 150 "USD" "USD" { convertedAmount := 150, rate := 1 } [ruleABC] 100

/-- A pending expense whose chain is approved by A and B and waits for C. -/
def lastStepExpense : Expense :=
  { sequentialExpense with
    approvalFlow :=
      [ { approverId := 1, status := "approved", comments := none, actionDate := some 10,
          order := 1 },
        { approverId := 2, status := "approved", comments := none, actionDate := some 20,
          order := 2 },
        { approverId := 3, status := "pending", comments := none, actionDate := none,
          order := 3 } ]
    currentApprover := some 3 }

/-- The document in memory after A sent the action `reject` on `sequentialExpense`: the one
the handler calls `save()` on. Its first entry carries the status `reject`. -/
def rejectedExpense : Expense :=
  ((putApproval (some sequentialExpense) 1 "reject" (some "no receipt") 5).expense).getD
    sequentialExpense

/-- A document produced by creation routing, or assigned by an approval action that the
single or the bulk handler applied (the caller held a pending entry), whatever the action
value and whatever `save()` does with it. -/
def Produced (e : Expense) : Prop :=
  (∃ (employeeId companyId : Nat) (category : String) (amount : ℚ)
      (currency baseCurrency : String) (conversion : Conversion) (stored : List ApprovalRule)
      (autoApprovalLimit : ℚ),
      e = postExpense employeeId companyId category amount currency baseCurrency conversion
        stored autoApprovalLimit) ∨
  (∃ (expense : Expense) (userId : Nat) (action : String) (comments : Option String)
      (now : Nat),
      putApproval (some expense) userId action comments now =
        { verdict := Verdict.applied, expense := some e }) ∨
  (∃ (expense : Expense) (userId : Nat) (action : String) (comments : Option String)
      (now : Nat),
      bulkItem (some expense) userId action comments now =
        { verdict := Verdict.applied, expense := some e })

/-- A rule of company 7 that is switched off. -/
def inactiveRule : ApprovalRule := { ruleABC with id := 41, isActive := false }

/-- A rule of company 7 for expenses of at least 500 in base currency. -/
def largeAmountRule : ApprovalRule :=
  { ruleABC with
    id := 42
    conditions :=
      { amountThreshold := 500, categories := [], departments := [], currencies := [] } }

/-! ## The bulk loop (`routes/approvals.js`, `PUT /api/approvals/bulk`) -/

/-- The `error` text of one element of `errors` in the bulk handler: the two literal messages
of lines 347 and 358, and `error.message` of whatever the `catch` of line 419 caught. -/
inductive BulkError where
  | expenseNotFound
  | notAuthorized
  | thrown
deriving DecidableEq, Repr

/-- The state of the bulk loop: the expense collection, and the arrays `results` and `errors`
(an element of `results` is kept as its `expenseId`). -/
structure BulkState where
  store : Nat → Option Expense
  results : List Nat
  errors : List (Nat × BulkError)

/-- One pass of the `for` loop of lines 342-422 for `expenseId`. `saveRejects` and
`notifyRejects` tell whether `expense.save()` and `Notification.create` reject for that id; a
rejection is caught at line 419 and pushed to `errors`. `results.push` (line 391) stands
between the two calls. The outcome of `save()` is an argument here; `bulkPass` takes it from
the validators of the schema. -/
def bulkStep (userId : Nat) (action : String) (comments : Option String) (now : Nat)
    (saveRejects notifyRejects : Nat → Bool) (s : BulkState) (expenseId : Nat) : BulkState :=
  let handled := bulkItem (s.store expenseId) userId action comments now
  match handled.verdict with
  | Verdict.notFound =>
    { s with errors := s.errors ++ [(expenseId, BulkError.expenseNotFound)] }
  | Verdict.notAuthorized =>
    { s with errors := s.errors ++ [(expenseId, BulkError.notAuthorized)] }
  | Verdict.applied =>
    if saveRejects expenseId then
      { s with errors := s.errors ++ [(expenseId, BulkError.thrown)] }
    else
      let saved : BulkState :=
        { store := fun id => if id = expenseId then handled.expense else s.store id
          results := s.results ++ [expenseId]
          errors := s.errors }
      if notifyRejects expenseId then
        { saved with errors := saved.errors ++ [(expenseId, BulkError.thrown)] }
      else saved

/-- The handler of `PUT /api/approvals/bulk` (lines 321-433) after its two request checks:
the loop over `expenseIds`, started with empty `results` and `errors`. The response reports
`processed = results.length` and `errors = errors.length`. The outcomes of `save()` are
arguments here; `bulkRequest` takes them from the validators of the schema. -/
def putBulk (store : Nat → Option Expense) (expenseIds : List Nat) (userId : Nat)
    (action : String) (comments : Option String) (now : Nat)
    (saveRejects notifyRejects : Nat → Bool) : BulkState :=
  expenseIds.foldl (bulkStep userId action comments now saveRejects notifyRejects)
    { store := store, results := [], errors := [] }

/-! ## The conditions of a conditional rule as the specification reads them -/

/-- The specification's reading of one `conditionalRules` entry, for an expense whose employee
belongs to `department`: `amount_greater_than` is `convertedAmount > value`,
`amount_less_than` is `convertedAmount < value`, `category_equals` is `category = value`,
`department_equals` is `department = value`. -/
def specConditionHolds (department : String) (expense : Expense) (r : ConditionalRule) : Bool :=
  if r.condition == "amount_greater_than" then r.value.lessThan expense.convertedAmount
  else if r.condition == "amount_less_than" then r.value.greaterThan expense.convertedAmount
  else if r.condition == "category_equals" then r.value.strictEquals expense.category
  else if r.condition == "department_equals" then r.value.strictEquals department
  else true

/-- The three conditions for which `checkConditionalRules` has a `case`. -/
def evaluatedCondition (r : ConditionalRule) : Bool :=
  r.condition == "amount_greater_than" || r.condition == "amount_less_than" ||
    r.condition == "category_equals"

/-- The filters of lines 124-136 of `getApplicableApprovers` all let the expense through. -/
def ApprovalRule.passesFilters (rule : ApprovalRule) (expense : Expense) : Prop :=
  rule.isActive = true ∧
    (¬ rule.conditions.amountThreshold > 0 ∨
      expense.convertedAmount ≥ rule.conditions.amountThreshold) ∧
    (rule.conditions.categories = [] ∨ expense.category ∈ rule.conditions.categories)

/-- The three filters are decidable. -/
instance (rule : ApprovalRule) (expense : Expense) : Decidable (rule.passesFilters expense) := by
  unfold ApprovalRule.passesFilters
  infer_instance

/-! ## More sample data -/

/-- The expense of 150 USD of company 7 routed while no rule of the company applies. -/
def unroutedExpense : Expense :=
  postExpense 9 7 "Travel" 150 "USD" "USD" { convertedAmount := 150, rate := 1 }
    [inactiveRule, largeAmountRule] 100

/-- The rule `ruleABC` restricted, in its stored conditions, to the department `Sales` and the
currency `EUR`. -/
def euroSalesRule : ApprovalRule :=
  { ruleABC with
    id := 43
    conditions :=
      { amountThreshold := 0, categories := [], departments := ["Sales"],
        currencies := ["EUR"] } }

/-- A second sequential rule of company 7 that matches every expense; its one approver is the
user D with id 4. -/
def ruleD : ApprovalRule :=
  { ruleABC with
    id := 44
    approvers :=
      [ { userId := 4, role := "admin", order := 1, isRequired := true, canDelegate := false } ] }

/-- A conditional rule whose one entry asks for the department `Sales`. -/
def salesRule : ApprovalRule :=
  { ruleABC with
    id := 45
    ruleType := "conditional"
    conditionalRules :=
      [ { condition := "department_equals", value := Mixed.string "Sales" none,
          action := "add_approver", targetApprover := none } ] }

/-- A conditional rule whose one entry, `amount_greater_than 100`, declares `action`. -/
def actionRule (action : String) : ApprovalRule :=
  { ruleABC with
    id := 46
    ruleType := "conditional"
    conditionalRules :=
      [ { condition := "amount_greater_than", value := Mixed.number 100,
          action := action, targetApprover := none } ] }

/-- A percentage rule with `minPercentage = 60` and the three approvers A, B, C. -/
def percentageRule : ApprovalRule :=
  { ruleABC with
    id := 47
    ruleType := "percentage"
    percentageRules := { minPercentage := 60, requireAll := false } }

/-- The expense of 150 USD routed by `percentageRule`. -/
def percentageExpense : Expense :=
  postExpense 9 7 "Travel" 150 "USD" "USD" { convertedAmount := 150, rate := 1 }
    [percentageRule] 100

/-- A collection that holds `sequentialExpense` under the id 100 and nothing else. -/
def bulkStore : Nat → Option Expense :=
  fun id => if id = 100 then some sequentialExpense else none

/-- A sequential rule whose approvers are stored as `C:3, A:1, B:2`. -/
def shuffledRule : ApprovalRule :=
  { ruleABC with
    id := 48
    approvers :=
      [ { userId := 3, role := "director", order := 3, isRequired := true,
          canDelegate := false },
        { userId := 1, role := "manager", order := 1, isRequired := true, canDelegate := false },
        { userId := 2, role := "finance", order := 2, isRequired := true,
          canDelegate := false } ] }

/-! ## Replies of the approval routes (`routes/approvals.js`) -/

/-- The HTTP status a handler answers with: 200 (201 after a creation), 400, 403, 404, or the
500 of its `catch`. -/
inductive Reply where
  | ok
  | badRequest
  | forbidden
  | notFound
  | serverError
deriving DecidableEq, Repr

/-- A reply together with the document the collection holds for the expense afterwards. -/
structure Served where
  reply : Reply
  stored : Option Expense
deriving DecidableEq, Repr

/-- The entry `nextApproval` of line 143, when the handler takes the branch `Move to next
approver` and `find` returns an entry; `none` in every other case. -/
def nextApprovalOf (expense : Expense) (userId : Nat) (userApproval : ApprovalEntry)
    (action : String) (comments : Option String) (now : Nat) : Option ApprovalEntry :=
  let acted := recordAction action comments now userApproval
  let flow := updateFirst (isUserApproval userId) (recordAction action comments now)
    expense.approvalFlow
  let remainingApprovals :=
    flow.filter (fun approval => approval.status == "pending" && approval.isRequired)
  if action == "rejected" || remainingApprovals.length == 0 then none
  else flow.find? (fun approval => approval.status == "pending" && approval.order > acted.order)

/-- The handler of `PUT /api/approvals/:expenseId` with its awaited calls (lines 95-219).
`notifyNextRejects`, `saveRejects`, `notifyOwnerRejects` tell whether the
`Notification.create` of line 151, the `expense.save()` of line 172 and the
`Notification.create` of line 181 reject; a rejection ends in the `catch` of line 212. The
reload of lines 202-205 is taken to resolve. The outcome of `save()` is an argument here;
`approvalRequest` takes it from the validators of the schema. -/
def putApprovalRoute (found : Option Expense) (userId : Nat) (action : String)
    (comments : Option String) (now : Nat)
    (notifyNextRejects saveRejects notifyOwnerRejects : Bool) : Served :=
  match found with
  | none => { reply := Reply.notFound, stored := none }
  | some expense =>
    match expense.approvalFlow.find? (isUserApproval userId) with
    | none => { reply := Reply.forbidden, stored := some expense }
    | some userApproval =>
      if (nextApprovalOf expense userId userApproval action comments now).isSome &&
          notifyNextRejects then
        { reply := Reply.serverError, stored := some expense }
      else if saveRejects then { reply := Reply.serverError, stored := some expense }
      else if notifyOwnerRejects then
        { reply := Reply.serverError
          stored := some (applyAction expense userId userApproval action comments now) }
      else
        { reply := Reply.ok
          stored := some (applyAction expense userId userApproval action comments now) }

/-! ## What a request does to the collection (`routes/approvals.js`, `models/Expense.js`) -/

/-- The validation `save()` runs on the document it is called on, before anything is written:
`true` when it throws the validation error (`none`: the run never reached `save()`). -/
def validationFails (document : Option Expense) : Bool :=
  match document with
  | some expense => !expense.validates
  | none => false

/-- The route `PUT /api/approvals/:expenseId` (line 95) for a caller who passes the role gate.
The middleware `validateApproval` answers 400 before the handler runs. In the handler,
`save()` (line 172) resolves exactly when the document it is called on passes the validators
of the schema, and a validation error ends in the `catch` of line 212 like any other rejection
of `save()`. `notifyNextRejects` and `notifyOwnerRejects` tell whether the two
`Notification.create` calls reject. -/
def approvalRequest (found : Option Expense) (userId : Nat) (action : String)
    (comments : Option String) (now : Nat) (notifyNextRejects notifyOwnerRejects : Bool) :
    Served :=
  if validateApproval action comments then
    putApprovalRoute found userId action comments now notifyNextRejects
      (validationFails (putApproval found userId action comments now).expense)
      notifyOwnerRejects
  else { reply := Reply.badRequest, stored := found }

/-- One pass of the bulk loop (lines 342-422) in which `save()` (line 390) runs the validators
of the schema on the document of that pass. -/
def bulkPass (userId : Nat) (action : String) (comments : Option String) (now : Nat)
    (notifyRejects : Nat → Bool) (s : BulkState) (expenseId : Nat) : BulkState :=
  bulkStep userId action comments now
    (fun id => validationFails (bulkItem (s.store id) userId action comments now).expense)
    notifyRejects s expenseId

/-- The reply of the bulk handler and the loop state it ends with: the collection, and the
arrays `results` and `errors` of the response body. -/
structure BulkServed where
  reply : Reply
  state : BulkState

/-- The handler of `PUT /api/approvals/bulk` (lines 321-433) for a caller who passes the role
gate: the two request checks of lines 325-337 answer 400; otherwise the loop runs with the
validators of the schema in `save()` and the handler answers 200. (Over HTTP the path `/bulk`
is matched by the route `/:expenseId` of line 95, registered first, whose `validateObjectId`
answers 400 for the segment `bulk`; this is the handler as written.) -/
def bulkRequest (store : Nat → Option Expense) (expenseIds : List Nat) (userId : Nat)
    (action : String) (comments : Option String) (now : Nat) (notifyRejects : Nat → Bool) :
    BulkServed :=
  if bulkRequestValid expenseIds action then
    { reply := Reply.ok
      state := expenseIds.foldl (bulkPass userId action comments now notifyRejects)
        { store := store, results := [], errors := [] } }
  else
    { reply := Reply.badRequest, state := { store := store, results := [], errors := [] } }

/-- The states of one expense that the collection can hold after `start`, request by request:
a step is any request to the single route, or any request to the bulk handler on a collection
that holds the expense under `expenseId`. -/
inductive StoredReachable (start : Expense) : Expense → Prop where
  | refl : StoredReachable start start
  | single {e e' : Expense} (userId : Nat) (action : String) (comments : Option String)
      (now : Nat) (notifyNextRejects notifyOwnerRejects : Bool) :
      StoredReachable start e →
      (approvalRequest (some e) userId action comments now notifyNextRejects
        notifyOwnerRejects).stored = some e' →
      StoredReachable start e'
  | bulk {e e' : Expense} (store : Nat → Option Expense) (expenseIds : List Nat)
      (expenseId userId : Nat) (action : String) (comments : Option String) (now : Nat)
      (notifyRejects : Nat → Bool) :
      StoredReachable start e → store expenseId = some e →
      (bulkRequest store expenseIds userId action comments now notifyRejects).state.store
        expenseId = some e' →
      StoredReachable start e'

/-- The document that a run of the single route writes: the one `save()` was called on when
`save()` resolved, `none` when the run ended before (400, 404, 403, or a rejection in the
`try`). -/
def approvalWrite (found : Option Expense) (userId : Nat) (action : String)
    (comments : Option String) (now : Nat) (notifyNextRejects : Bool) : Option Expense :=
  if validateApproval action comments then
    match found with
    | none => none
    | some expense =>
      match expense.approvalFlow.find? (isUserApproval userId) with
      | none => none
      | some userApproval =>
        if (nextApprovalOf expense userId userApproval action comments now).isSome &&
            notifyNextRejects then none
        else if validationFails
            (some (applyAction expense userId userApproval action comments now)) then none
        else some (applyAction expense userId userApproval action comments now)
  else none

/-- The replies of two requests to the single route for the same expense, and the document
the collection holds when both have ended. -/
structure RaceOutcome where
  firstReply : Reply
  secondReply : Reply
  stored : Option Expense
deriving DecidableEq, Repr

/-- Two requests of the same caller for the same expense. The `findById` of the second request
resolves either after the first request has ended (`overlapping = false`) or before the first
request reaches `save()` (`overlapping = true`), so that both handlers run on the document
that was stored at the start. `merge current document` is what the collection holds once a
`save()` of `document` resolved on the stored `current`; the handlers do not fix it (the write
is left to the library), so it is an argument. Notifications are taken to be created. -/
def raceRequests (merge : Option Expense → Expense → Option Expense) (overlapping : Bool)
    (found : Option Expense) (userId : Nat) (action₁ : String) (comments₁ : Option String)
    (now₁ : Nat) (action₂ : String) (comments₂ : Option String) (now₂ : Nat) : RaceOutcome :=
  let afterFirst : Option Expense :=
    match approvalWrite found userId action₁ comments₁ now₁ false with
    | some document => merge found document
    | none => found
  let loaded : Option Expense := if overlapping then found else afterFirst
  { firstReply := (approvalRequest found userId action₁ comments₁ now₁ false false).reply
    secondReply := (approvalRequest loaded userId action₂ comments₂ now₂ false false).reply
    stored :=
      match approvalWrite loaded userId action₂ comments₂ now₂ false with
      | some document => merge afterFirst document
      | none => afterFirst }

/-! ## Access to an expense (`middleware/auth.js`) -/

/-- The paths of `req.user` that the handlers read. -/
structure User where
  id : Nat
  companyId : Nat
  role : String
deriving DecidableEq, Repr

/-- The middleware `authorizeExpenseAccess` (`middleware/auth.js`, lines 110-160), `found`
being the result of `Expense.findById`: `ok` stands for `next()`. -/
def authorizeExpenseAccess (user : User) (found : Option Expense) : Reply :=
  match found with
  | none => Reply.notFound
  | some expense =>
    if user.role == "admin" && user.companyId == expense.companyId then Reply.ok
    else if user.role == "manager" &&
        (expense.approvalFlow.any (fun approval => approval.approverId == user.id) ||
          expense.employeeId == user.id) then Reply.ok
    else if user.role == "employee" && expense.employeeId == user.id then Reply.ok
    else Reply.forbidden

/-! ## Delete of an expense (`routes/expenses.js`) -/

/-- The handler of `DELETE /api/expenses/:id` (lines 305-330) on `req.expense`: the reply,
and the document the collection holds afterwards (`none` once deleted). -/
def deleteExpense (expense : Expense) (role : String) : Served :=
  if expense.status != "draft" && role != "admin" then
    { reply := Reply.badRequest, stored := some expense }
  else { reply := Reply.ok, stored := none }

/-! ## Currency conversion (`utils/currencyConverter.js`) -/

/-- A table of exchange rates: the object `rates`, read by currency code. -/
abbrev RateTable := List (String × ℚ)

/-- The module state of `currencyConverter.js`: `exchangeRateCache` (by base currency, latest
write first) and `cacheTimestamp`. -/
structure RateCache where
  exchangeRateCache : List (String × RateTable)
  cacheTimestamp : Option Nat
deriving DecidableEq, Repr

/-- The constant `CACHE_DURATION` (line 6), in milliseconds. -/
def CACHE_DURATION : Nat := 60 * 60 * 1000

/-- The object `fallbackRates` of lines 35-106, in source order (the keys `XAF` and `XOF`
stand twice in the source, with the same values). -/
def fallbackRates : RateTable :=
  [ ("USD", 1), ("EUR", 0.85), ("GBP", 0.73), ("JPY", 110),
    ("CAD", 1.25), ("AUD", 1.35), ("CHF", 0.92), ("CNY", 6.45),
    ("INR", 75), ("BRL", 5.2), ("MXN", 20), ("KRW", 1180),
    ("SGD", 1.35), ("HKD", 7.8), ("NOK", 8.5), ("SEK", 8.7),
    ("DKK", 6.3), ("PLN", 3.9), ("CZK", 21.5), ("HUF", 300),
    ("RUB", 75), ("TRY", 8.5), ("ZAR", 15), ("ILS", 3.2),
    ("AED", 3.67), ("SAR", 3.75), ("QAR", 3.64), ("KWD", 0.30),
    ("BHD", 0.38), ("OMR", 0.38), ("JOD", 0.71), ("LBP", 1500),
    ("EGP", 15.7), ("MAD", 9.1), ("TND", 2.8), ("DZD", 135),
    ("LYD", 4.5), ("SDG", 55), ("ETB", 45), ("KES", 110),
    ("UGX", 3500), ("TZS", 2300), ("ZMW", 18), ("BWP", 11),
    ("SZL", 15), ("LSL", 15), ("MUR", 42), ("SCR", 13.5),
    ("KMF", 440), ("DJF", 178), ("SOS", 580), ("ERN", 15),
    ("AOA", 650), ("MZN", 64), ("MWK", 820), ("BIF", 2000),
    ("RWF", 1000), ("CDF", 2000), ("XAF", 550), ("XOF", 550),
    ("GMD", 52), ("GNF", 10200), ("SLL", 10200), ("LRD", 155),
    ("CVE", 100), ("STN", 22), ("GHS", 6.1), ("NGN", 410),
    ("XAF", 550), ("XOF", 550) ]

/-- The function `getExchangeRates` (lines 9-111). `fetch` is the outcome of the request of
line 16: `some rates` when the response carries `data.rates`, `none` when the request fails or
the response is invalid (both end in the `catch`). `now` is `Date.now()`. Returns the rates and
the module state afterwards. The test `cacheTimestamp &&` of line 12 is false for `null` and
for the number `0`. -/
def getExchangeRates (fetch : String → Option RateTable) (now : Nat) (cache : RateCache)
    (baseCurrency : String) : RateTable × RateCache :=
  let fresh : Bool :=
    match cache.cacheTimestamp with
    | some stamp => stamp != 0 && decide (now - stamp < CACHE_DURATION)
    | none => false
  match fresh, cache.exchangeRateCache.lookup baseCurrency with
  | true, some cached => (cached, cache)
  | _, cachedOrNone =>
    match fetch baseCurrency with
    | some rates =>
      (rates, { exchangeRateCache := (baseCurrency, rates) :: cache.exchangeRateCache
                cacheTimestamp := some now })
    | none =>
      match cachedOrNone with
      | some cached => (cached, cache)
      | none => (fallbackRates, cache)

/-- The function `convertCurrency` (lines 114-142); `none` stands for the `Error` it throws.
`amount` is `parseFloat(amount)`. A rate that is missing or zero is falsy at line 126.
`roundedProduct amount rate` stands for the number `Math.round(amount * rate * 100) / 100` of
lines 131 and 136: the product and the rounding are operations on doubles, which arithmetic on
rationals does not reproduce, so the operation is an argument. -/
def convertCurrency (roundedProduct : ℚ → ℚ → ℚ) (fetch : String → Option RateTable)
    (now : Nat) (cache : RateCache) (amount : ℚ) (fromCurrency toCurrency : String) :
    Option Conversion × RateCache :=
  if fromCurrency == toCurrency then
    (some { convertedAmount := amount, rate := 1 }, cache)
  else
    let fetched := getExchangeRates fetch now cache fromCurrency
    match fetched.1.lookup toCurrency with
    | none => (none, fetched.2)
    | some rate =>
      if rate == 0 then (none, fetched.2)
      else (some { convertedAmount := roundedProduct amount rate, rate := rate }, fetched.2)

/-- The paths of the company document that creation and update read (`models/Company.js`):
`currency` and `settings.autoApprovalLimit`. -/
structure Company where
  currency : String
  autoApprovalLimit : ℚ
deriving DecidableEq, Repr

/-- The handler of `POST /api/expenses` (lines 115-234) after its middleware: the reply and the
document the collection holds for the new expense afterwards (`none`: no expense was created).
`company` is the result of `Company.findById` (line 130). A thrown conversion (line 140) ends
in the `catch` of line 227 before `Expense.create`. `Expense.create` (line 143) stores the
draft when the document passes the validators of the schema, `save()` (lines 179, 182, 194)
stores the routed document likewise, and `Notification.create` (line 197) is awaited only in
the branch that builds a chain. `createRejects`, `saveRejects`, `notifyRejects` tell whether
these three calls reject for another reason (a validator of a path not modelled, the
database). The queries of lines 160 and 218 are taken to resolve. -/
def postExpenseRequest (roundedProduct : ℚ → ℚ → ℚ) (fetch : String → Option RateTable)
    (now : Nat) (cache : RateCache) (company : Option Company) (employeeId companyId : Nat)
    (category : String) (amount : ℚ) (currency : String) (stored : List ApprovalRule)
    (createRejects saveRejects notifyRejects : Bool) : Served :=
  match company with
  | none => { reply := Reply.notFound, stored := none }
  | some company =>
    match (convertCurrency roundedProduct fetch now cache amount currency
        company.currency).1 with
    | none => { reply := Reply.serverError, stored := none }
    | some conversion =>
      let created := Expense.create employeeId companyId category amount currency
        company.currency conversion
      let routed := postExpense employeeId companyId category amount currency
        company.currency conversion stored company.autoApprovalLimit
      if createRejects || !created.validates then { reply := Reply.serverError, stored := none }
      else if saveRejects || !routed.validates then
        { reply := Reply.serverError, stored := some created }
      else if (applicableApprovers (findActiveRules stored companyId) created).length != 0 &&
          notifyRejects then
        { reply := Reply.serverError, stored := some routed }
      else { reply := Reply.ok, stored := some routed }

/-! ## Update of an expense (`routes/expenses.js`) -/

/-- The fields of the body of `PUT /api/expenses/:id` that reach modelled paths. `amount` is a
JSON number. -/
structure ExpenseUpdate where
  category : Option String
  amount : Option ℚ
  currency : Option String
deriving DecidableEq, Repr

/-- JavaScript truthiness of an optional string: present and not empty. -/
def truthyString (s : Option String) : Bool :=
  match s with
  | some text => text != ""
  | none => false

/-- JavaScript truthiness of an optional number: present and not zero. -/
def truthyNumber (x : Option ℚ) : Bool :=
  match x with
  | some q => q != 0
  | none => false

/-- The method `toUpperCase`, on the ASCII letters of a currency code. -/
def toUpperCase (s : String) : String := String.mk (s.data.map Char.toUpper)

/-- The assignments of lines 263-270 on the modelled paths. -/
def applyUpdate (expense : Expense) (body : ExpenseUpdate) : Expense :=
  { expense with
    category := if truthyString body.category then body.category.getD expense.category
      else expense.category
    amount := if truthyNumber body.amount then body.amount.getD expense.amount
      else expense.amount
    currency := if truthyString body.currency then
        toUpperCase (body.currency.getD expense.currency)
      else expense.currency }

/-- The handler of `PUT /api/expenses/:id` (lines 239-300) on `req.expense`: the reply and the
document the collection holds afterwards. `role` is `req.user.role`; `company` is the result
of `Company.findById` (line 275), and reading `company.currency` of `null` throws. A thrown
conversion ends in the `catch` before `save()`. `save()` (line 282) stores the document when
it passes the validators of the schema; `saveRejects` tells whether it rejects for another
reason (a validator of a path not modelled, the database). The route has no request
validation, so the body reaches the schema as it is. -/
def putExpense (roundedProduct : ℚ → ℚ → ℚ) (fetch : String → Option RateTable) (now : Nat)
    (cache : RateCache) (expense : Expense) (role : String) (body : ExpenseUpdate)
    (company : Option Company) (saveRejects : Bool) : Served :=
  if expense.status != "draft" && role != "admin" then
    { reply := Reply.badRequest, stored := some expense }
  else
    let updated := applyUpdate expense body
    if truthyNumber body.amount || truthyString body.currency then
      match company with
      | none => { reply := Reply.serverError, stored := some expense }
      | some company =>
        match (convertCurrency roundedProduct fetch now cache updated.amount updated.currency
            company.currency).1 with
        | none => { reply := Reply.serverError, stored := some expense }
        | some conversion =>
          let document : Expense :=
            { updated with
              convertedAmount := conversion.convertedAmount
              exchangeRate := conversion.rate }
          if saveRejects || !document.validates then
            { reply := Reply.serverError, stored := some expense }
          else { reply := Reply.ok, stored := some document }
    else if saveRejects || !updated.validates then
      { reply := Reply.serverError, stored := some expense }
    else { reply := Reply.ok, stored := some updated }

/-! ## Listing of expenses (`routes/expenses.js`, `GET /api/expenses`) -/

/-- An expense document with the further paths the listing filter reads. -/
structure ListedExpense where
  expense : Expense
  title : String
  description : Option String
  expenseDate : Nat
deriving DecidableEq, Repr

/-- The query parameters of `GET /api/expenses` that the filter reads. -/
structure ListQuery where
  status : Option String
  category : Option String
  employeeId : Option Nat
  startDate : Option Nat
  endDate : Option Nat
  search : Option String
deriving DecidableEq, Repr

/-- One alternative of the `$or` of the filter. -/
inductive OrClause where
  | employeeId (id : Nat)
  | approverId (id : Nat)
  | title (pattern : String)
  | description (pattern : String)
deriving DecidableEq, Repr

/-- The object `filter` of lines 21-60; `orClauses` is its key `$or`. -/
structure ExpenseFilter where
  companyId : Nat
  employeeId : Option Nat
  orClauses : Option (List OrClause)
  status : Option String
  category : Option String
  expenseDate : Option (Nat × Nat)
deriving DecidableEq, Repr

/-- The statements of lines 21-60 in their order: each one assigns one key of `filter`; the
assignment of line 56 replaces the `$or` of line 28. `query.search` is a search term that
`new RegExp` compiles; for a malformed pattern the constructor throws and the route answers
500 without building a filter. -/
def buildFilter (user : User) (query : ListQuery) : ExpenseFilter :=
  let f0 : ExpenseFilter :=
    { companyId := user.companyId, employeeId := none, orClauses := none, status := none,
      category := none, expenseDate := none }
  let f1 : ExpenseFilter :=
    if user.role == "employee" then { f0 with employeeId := some user.id }
    else if user.role == "manager" then
      { f0 with orClauses := some [OrClause.employeeId user.id, OrClause.approverId user.id] }
    else f0
  let f2 : ExpenseFilter :=
    if truthyString query.status then { f1 with status := query.status } else f1
  let f3 : ExpenseFilter :=
    if truthyString query.category then { f2 with category := query.category } else f2
  let f4 : ExpenseFilter :=
    if query.employeeId.isSome && user.role == "admin" then
      { f3 with employeeId := query.employeeId }
    else f3
  let f5 : ExpenseFilter :=
    match query.startDate, query.endDate with
    | some startDate, some endDate => { f4 with expenseDate := some (startDate, endDate) }
    | _, _ => f4
  match query.search with
  | some search =>
    if search != "" then
      { f5 with orClauses := some [OrClause.title search, OrClause.description search] }
    else f5
  | none => f5

/-- Whether a document satisfies one alternative of `$or`; `regexTest pattern text` stands for
`new RegExp(pattern, 'i').test(text)`. -/
def OrClause.holds (regexTest : String → String → Bool) (doc : ListedExpense) :
    OrClause → Bool
  | OrClause.employeeId id => doc.expense.employeeId == id
  | OrClause.approverId id => doc.expense.approvalFlow.any (fun a => a.approverId == id)
  | OrClause.title pattern => regexTest pattern doc.title
  | OrClause.description pattern =>
    match doc.description with
    | some text => regexTest pattern text
    | none => false

/-- Whether `Expense.find(filter)` returns the document: every key of the filter holds. -/
def ExpenseFilter.selects (regexTest : String → String → Bool) (f : ExpenseFilter)
    (doc : ListedExpense) : Bool :=
  doc.expense.companyId == f.companyId &&
  (match f.employeeId with
   | some id => doc.expense.employeeId == id
   | none => true) &&
  (match f.orClauses with
   | some clauses => clauses.any (OrClause.holds regexTest doc)
   | none => true) &&
  (match f.status with
   | some status => doc.expense.status == status
   | none => true) &&
  (match f.category with
   | some category => doc.expense.category == category
   | none => true) &&
  (match f.expenseDate with
   | some range => decide (range.1 ≤ doc.expenseDate ∧ doc.expenseDate ≤ range.2)
   | none => true)

/-- A lower bound of `new RegExp(pattern, 'i').test(text)` for a pattern made of letters: a
text equal to the pattern matches. -/
def literalTest (pattern text : String) : Bool := pattern == text

/-! ## Sample users and requests -/

/-- An admin of company 7. -/
def adminUser : User := { id := 50, companyId := 7, role := "admin" }

/-- A manager of company 7 who neither owns `sequentialExpense` nor stands in its chain. -/
def otherManager : User := { id := 60, companyId := 7, role := "manager" }

/-- The expense `sequentialExpense` of employee 9, with title `Taxi`. -/
def taxiExpense : ListedExpense :=
  { expense := sequentialExpense, title := "Taxi", description := none, expenseDate := 0 }

/-- A listing request that only carries the search term `Taxi`. -/
def taxiSearch : ListQuery :=
  { status := none, category := none, employeeId := none, startDate := none, endDate := none,
    search := some "Taxi" }

/-- The module state of the converter before any rate was fetched. -/
def emptyCache : RateCache := { exchangeRateCache := [], cacheTimestamp := none }

/-- A rate source that is unavailable: every request fails. -/
def offline : String → Option RateTable := fun _ => none

/-- A body that only changes the amount, to 500. -/
def amountUpdate : ExpenseUpdate := { category := none, amount := some 500, currency := none }

/-- The company 7: base currency USD, auto-approval limit 100. -/
def sampleCompany : Company := { currency := "USD", autoApprovalLimit := 100 }

/-- The value of `Math.round(amount * rate * 100) / 100` on the sample requests, whose amounts
and rates are whole numbers: there the double product is exact and the rounding changes
nothing. -/
def wholeProduct (amount rate : ℚ) : ℚ := amount * rate

/-- An expense in a terminal state in which B still holds a pending entry: the chain of
`sequentialExpense` with the entry of A rejected, status `rejected`, no current approver. The
document passes the validators of the schema, so the collection can hold it. -/
def terminalExpense : Expense :=
  { sequentialExpense with
    status := "rejected"
    approvalFlow :=
      [ { approverId := 1, status := "rejected", comments := some "no receipt",
          actionDate := some 5, order := 1 },
        { approverId := 2, status := "pending", comments := none, actionDate := none,
          order := 2 },
        { approverId := 3, status := "pending", comments := none, actionDate := none,
          order := 3 } ]
    currentApprover := none
    rejectionReason := some "no receipt" }

/-! ## Auxiliary facts about the handlers -/

/-- No entry is ever counted in `remainingApprovals`: the filter asks for `isRequired`. -/
theorem remainingApprovals_nil (flow : List ApprovalEntry) :
    flow.filter (fun approval => approval.status == "pending" && approval.isRequired) = [] := by
  simp [ApprovalEntry.isRequired]

/-- The document `applyAction` leaves: the final-decision branch is always the one taken. -/
theorem applyAction_eq (expense : Expense) (userId : Nat) (userApproval : ApprovalEntry)
    (action : String) (comments : Option String) (now : Nat) :
    applyAction expense userId userApproval action comments now =
      { expense with
        approvalFlow := updateFirst (isUserApproval userId) (recordAction action comments now)
          expense.approvalFlow
        status := if action == "approved" then "approved" else "rejected"
        currentApprover := none
        rejectionReason := if action == "rejected" then comments else expense.rejectionReason } := by
  simp [applyAction, remainingApprovals_nil]

/-- The loop body of the bulk handler computes what the single handler computes. -/
theorem bulkItem_eq_putApproval (found : Option Expense) (userId : Nat) (action : String)
    (comments : Option String) (now : Nat) :
    bulkItem found userId action comments now = putApproval found userId action comments now := by
  cases found with
  | none => rfl
  | some expense =>
    simp only [bulkItem, putApproval]
    cases h : expense.approvalFlow.find? (isUserApproval userId) with
    | none => rfl
    | some userApproval => simp [applyAction, remainingApprovals_nil]

/-- The caller holds a pending entry exactly when `find` returns an entry. -/
theorem find_isUserApproval_eq_none (flow : List ApprovalEntry) (userId : Nat) :
    flow.find? (isUserApproval userId) = none ↔
      ∀ approval ∈ flow, ¬ (approval.approverId = userId ∧ approval.status = "pending") := by
  simp [isUserApproval]

/-- When the caller holds a pending entry the handler applies the action. -/
theorem putApproval_of_pending (expense : Expense) (userId : Nat) (action : String)
    (comments : Option String) (now : Nat)
    (h : ∃ approval ∈ expense.approvalFlow,
      approval.approverId = userId ∧ approval.status = "pending") :
    putApproval (some expense) userId action comments now =
      { verdict := Verdict.applied
        expense := some { expense with
          approvalFlow := updateFirst (isUserApproval userId)
            (recordAction action comments now) expense.approvalFlow
          status := if action == "approved" then "approved" else "rejected"
          currentApprover := none
          rejectionReason :=
            if action == "rejected" then comments else expense.rejectionReason } } := by
  simp only [putApproval]
  cases hf : expense.approvalFlow.find? (isUserApproval userId) with
  | none =>
    exfalso
    obtain ⟨a, ha, h1, h2⟩ := h
    exact (find_isUserApproval_eq_none _ _).1 hf a ha ⟨h1, h2⟩
  | some userApproval => simp [applyAction_eq]

/-- When the caller holds no pending entry the handler answers 403 and returns the document
as it was loaded. -/
theorem putApproval_of_not_pending (expense : Expense) (userId : Nat) (action : String)
    (comments : Option String) (now : Nat)
    (h : ∀ approval ∈ expense.approvalFlow,
      ¬ (approval.approverId = userId ∧ approval.status = "pending")) :
    putApproval (some expense) userId action comments now =
      { verdict := Verdict.notAuthorized, expense := some expense } := by
  simp only [putApproval]
  rw [(find_isUserApproval_eq_none _ _).2 h]

/-! ## The approval action: claims C1, C2 and C4 -/

/-- C1 (code bug). On the expense routed from the sequential rule `[A:1, B:2, C:3]` (pending,
current approver A, three pending entries) the approval of A does not move the expense to B:
with the validated action `approve` the handler sets status `rejected` and clears
`currentApprover`, and with the action `approved` it sets status `approved` and clears
`currentApprover`, although B and C are still pending. -/
theorem first_approval_is_final :
    sequentialExpense.status = "pending" ∧
    sequentialExpense.currentApprover = some 1 ∧
    sequentialExpense.approvalFlow.map (fun a => (a.approverId, a.order, a.status)) =
      [(1, 1, "pending"), (2, 2, "pending"), (3, 3, "pending")] ∧
    (putApproval (some sequentialExpense) 1 "approve" none 0).expense.map
      (fun e => (e.status, e.currentApprover, e.approvalFlow.map (fun a => a.status))) =
      some ("rejected", none, ["approve", "pending", "pending"]) ∧
    (putApproval (some sequentialExpense) 1 "approved" none 0).expense.map
      (fun e => (e.status, e.currentApprover, e.approvalFlow.map (fun a => a.status))) =
      some ("approved", none, ["approved", "pending", "pending"]) := by
  decide

/-- C2 (code bug). C holds the only pending entry and sends the action that request validation
accepts, `approve`: the handler sets the expense status to `rejected`, not `approved`, and
leaves `rejectionReason` as it was. -/
theorem last_approve_sets_rejected :
    validateApproval "approve" none = true ∧
    (putApproval (some lastStepExpense) 3 "approve" none 30).verdict = Verdict.applied ∧
    (putApproval (some lastStepExpense) 3 "approve" none 30).expense.map
      (fun e => (e.status, e.currentApprover, e.rejectionReason,
        e.approvalFlow.map (fun a => a.status))) =
      some ("rejected", none, none, ["approved", "approved", "approve"]) := by
  decide

/-- C4. The handler answers not-authorized (403) if and only if the expense exists and no
entry of its chain has the caller as `approverId` and status `pending`; in that case the
document, hence its chain, status, `currentApprover` and `rejectionReason`, is the one that
was loaded. -/
theorem notAuthorized_iff (found : Option Expense) (userId : Nat) (action : String)
    (comments : Option String) (now : Nat) :
    ((putApproval found userId action comments now).verdict = Verdict.notAuthorized ↔
      ∃ expense, found = some expense ∧ ∀ approval ∈ expense.approvalFlow,
        ¬ (approval.approverId = userId ∧ approval.status = "pending")) ∧
    ((putApproval found userId action comments now).verdict = Verdict.notAuthorized →
      (putApproval found userId action comments now).expense = found) := by
  cases found with
  | none => simp [putApproval]
  | some expense =>
    by_cases h : ∀ approval ∈ expense.approvalFlow,
        ¬ (approval.approverId = userId ∧ approval.status = "pending")
    · rw [putApproval_of_not_pending expense userId action comments now h]
      exact ⟨⟨fun _ => ⟨expense, rfl, h⟩, fun _ => rfl⟩, fun _ => rfl⟩
    · have h' : ∃ approval ∈ expense.approvalFlow,
          approval.approverId = userId ∧ approval.status = "pending" := by
        by_contra hc
        exact h (fun a ha hp => hc ⟨a, ha, hp⟩)
      rw [putApproval_of_pending expense userId action comments now h']
      constructor
      · constructor
        · intro hv
          simp at hv
        · rintro ⟨e, he, hall⟩
          cases he
          exact absurd hall h
      · intro hv
        simp at hv

/-! ## The in-place update of the acted entry -/

/-- The update of the first match keeps the length of the list. -/
theorem updateFirst_length {α : Type} (p : α → Bool) (f : α → α) (l : List α) :
    (updateFirst p f l).length = l.length := by
  induction l with
  | nil => rfl
  | cons x xs ih =>
    by_cases hx : p x = true
    · simp [updateFirst, hx]
    · simp [updateFirst, hx, ih]

/-- Without a match the update changes nothing. -/
theorem updateFirst_of_none {α : Type} (p : α → Bool) (f : α → α) (l : List α)
    (h : ∀ a ∈ l, p a = false) : updateFirst p f l = l := by
  induction l with
  | nil => rfl
  | cons x xs ih =>
    have hx : p x = false := h x (List.mem_cons_self x xs)
    have hxs : ∀ a ∈ xs, p a = false := fun a ha => h a (List.mem_cons_of_mem x ha)
    simp [updateFirst, hx, ih hxs]

/-- With a match, the update rewrites the first matching position and no other one. -/
theorem updateFirst_spec {α : Type} (p : α → Bool) (f : α → α) (l : List α)
    (h : ∃ a ∈ l, p a = true) :
    ∃ (i : Nat) (a : α), l[i]? = some a ∧ p a = true ∧
      (∀ (j : Nat) (b : α), j < i → l[j]? = some b → p b = false) ∧
      (updateFirst p f l)[i]? = some (f a) ∧
      ∀ j : Nat, j ≠ i → (updateFirst p f l)[j]? = l[j]? := by
  induction l with
  | nil =>
    obtain ⟨a, ha, _⟩ := h
    cases ha
  | cons x xs ih =>
    by_cases hx : p x = true
    · refine ⟨0, x, by simp, hx, ?_, ?_, ?_⟩
      · intro j b hj
        omega
      · simp [updateFirst, hx]
      · intro j hj
        cases j with
        | zero => exact absurd rfl hj
        | succ k => simp [updateFirst, hx]
    · have hxs : ∃ a ∈ xs, p a = true := by
        obtain ⟨a, ha, hpa⟩ := h
        rcases List.mem_cons.1 ha with rfl | ha'
        · exact absurd hpa hx
        · exact ⟨a, ha', hpa⟩
      obtain ⟨i, a, hia, hpa, hbefore, hupd, hother⟩ := ih hxs
      refine ⟨i + 1, a, by simpa using hia, hpa, ?_, ?_, ?_⟩
      · intro j b hj hb
        cases j with
        | zero =>
          simp at hb
          subst hb
          simpa using hx
        | succ k =>
          exact hbefore k b (by omega) (by simpa using hb)
      · simpa [updateFirst, hx] using hupd
      · intro j hj
        cases j with
        | zero => simp [updateFirst, hx]
        | succ k =>
          have := hother k (by omega)
          simpa [updateFirst, hx] using this

/-! ## Invariants of the documents the handlers assign: claims C7 and C9 -/

/-- The two action values that the validation of the single handler lets through. -/
theorem action_of_validateApproval (action : String) (comments : Option String)
    (h : validateApproval action comments = true) : action = "approve" ∨ action = "reject" := by
  simp [validateApproval] at h
  exact h.1

/-- The two action values that the check of the bulk handler lets through. -/
theorem action_of_bulkRequestValid (expenseIds : List Nat) (action : String)
    (h : bulkRequestValid expenseIds action = true) :
    action = "approve" ∨ action = "reject" := by
  simp [bulkRequestValid] at h
  exact h.2

/-- The document after an applied action, whatever the action: `currentApprover` is cleared and
the status is `approved` or `rejected`. -/
theorem applied_final (expense e' : Expense) (userId : Nat) (action : String)
    (comments : Option String) (now : Nat)
    (h : putApproval (some expense) userId action comments now =
      { verdict := Verdict.applied, expense := some e' }) :
    e'.currentApprover = none ∧ (e'.status = "approved" ∨ e'.status = "rejected") ∧
      (action ≠ "approved" → e'.status = "rejected") ∧
      ∃ a ∈ e'.approvalFlow, a.status = action := by
  by_cases hp : ∃ approval ∈ expense.approvalFlow,
      approval.approverId = userId ∧ approval.status = "pending"
  · rw [putApproval_of_pending expense userId action comments now hp] at h
    simp only [Handled.mk.injEq, Option.some.injEq, true_and] at h
    subst h
    refine ⟨rfl, ?_, ?_, ?_⟩
    · by_cases ha : action = "approved" <;> simp [ha]
    · intro ha
      simp [ha]
    · have hex : ∃ a ∈ expense.approvalFlow, isUserApproval userId a = true := by
        obtain ⟨a, ha, h1, h2⟩ := hp
        exact ⟨a, ha, by simp [isUserApproval, h1, h2]⟩
      obtain ⟨i, a, _, _, _, hupd, _⟩ :=
        updateFirst_spec (isUserApproval userId) (recordAction action comments now)
          expense.approvalFlow hex
      exact ⟨_, List.getElem?_mem hupd, rfl⟩
  · have hp' : ∀ approval ∈ expense.approvalFlow,
        ¬ (approval.approverId = userId ∧ approval.status = "pending") :=
      fun a ha hc => hp ⟨a, ha, hc⟩
    rw [putApproval_of_not_pending expense userId action comments now hp'] at h
    simp at h

/-- Every state reached by at least one accepted action has status `rejected` and holds an
entry whose status is the raw action value `approve` or `reject`. -/
theorem reachable_cases (start e : Expense) (h : Reachable start e) :
    e = start ∨ (e.status = "rejected" ∧ e.currentApprover = none ∧
      ∃ a ∈ e.approvalFlow, a.status = "approve" ∨ a.status = "reject") := by
  induction h with
  | refl => exact Or.inl rfl
  | single userId action comments now _ hvalid hstep _ =>
    right
    have hact := action_of_validateApproval action comments hvalid
    obtain ⟨hcur, _, hrej, a, ha, hs⟩ := applied_final _ _ userId action comments now hstep
    refine ⟨hrej ?_, hcur, a, ha, ?_⟩
    · rcases hact with h | h <;> subst h <;> decide
    · rw [hs]
      exact hact
  | bulk expenseIds userId action comments now _ hvalid hstep _ =>
    right
    have hact := action_of_bulkRequestValid expenseIds action hvalid
    rw [bulkItem_eq_putApproval] at hstep
    obtain ⟨hcur, _, hrej, a, ha, hs⟩ := applied_final _ _ userId action comments now hstep
    refine ⟨hrej ?_, hcur, a, ha, ?_⟩
    · rcases hact with h | h <;> subst h <;> decide
    · rw [hs]
      exact hact

/-- The three outcomes of `routeExpense` on a freshly created document. -/
theorem routeExpense_create (employeeId companyId : Nat) (category : String) (amount : ℚ)
    (currency baseCurrency : String) (conversion : Conversion) (approvers : List Approver)
    (autoApprovalLimit : ℚ) :
    (approvers = [] ∧ conversion.convertedAmount ≤ autoApprovalLimit ∧
      routeExpense (Expense.create employeeId companyId category amount currency baseCurrency
        conversion) conversion approvers autoApprovalLimit =
        { Expense.create employeeId companyId category amount currency baseCurrency conversion
          with status := "approved" }) ∨
    (approvers = [] ∧ ¬ conversion.convertedAmount ≤ autoApprovalLimit ∧
      routeExpense (Expense.create employeeId companyId category amount currency baseCurrency
        conversion) conversion approvers autoApprovalLimit =
        { Expense.create employeeId companyId category amount currency baseCurrency conversion
          with status := "pending" }) ∨
    (∃ first rest, approvers = first :: rest ∧
      routeExpense (Expense.create employeeId companyId category amount currency baseCurrency
        conversion) conversion approvers autoApprovalLimit =
        { Expense.create employeeId companyId category amount currency baseCurrency conversion
          with
          status := "pending"
          currentApprover := some first.userId
          approvalFlow := (first :: rest).mapIdx (fun index approver =>
            { approverId := approver.userId, order := index + 1, status := "pending",
              comments := none, actionDate := none }) }) := by
  cases approvers with
  | nil =>
    by_cases hl : conversion.convertedAmount ≤ autoApprovalLimit
    · exact Or.inl ⟨rfl, hl, by simp [routeExpense, hl]⟩
    · exact Or.inr (Or.inl ⟨rfl, hl, by simp [routeExpense, hl]⟩)
  | cons first rest =>
    refine Or.inr (Or.inr ⟨first, rest, rfl, ?_⟩)
    simp [routeExpense]

/-- The rule loop yields no approvers exactly when no rule of the list yields any. -/
theorem applicableApprovers_eq_nil (approvalRules : List ApprovalRule) (expense : Expense) :
    applicableApprovers approvalRules expense = [] ↔
      ∀ rule ∈ approvalRules, rule.getApplicableApprovers expense = [] := by
  induction approvalRules with
  | nil => simp [applicableApprovers]
  | cons rule rest ih =>
    by_cases h : rule.getApplicableApprovers expense = []
    · simp [applicableApprovers, h, ih]
    · have hpos : 0 < (rule.getApplicableApprovers expense).length :=
        List.length_pos.2 h
      simp [applicableApprovers, hpos, h]

/-- C7. In every state reachable from creation routing by accepted approval actions, the
expense status is `approved` if and only if every chain entry is `approved`
(`isFullyApproved`), where a state with an empty chain counts only if creation routing
auto-approved the expense (no rule yielded approvers and the converted amount is within the
auto-approval limit). -/
theorem approved_iff_fully_approved (employeeId companyId : Nat) (category : String)
    (amount : ℚ) (currency baseCurrency : String) (conversion : Conversion)
    (stored : List ApprovalRule) (autoApprovalLimit : ℚ) (e : Expense)
    (hreach : Reachable (postExpense employeeId companyId category amount currency
      baseCurrency conversion stored autoApprovalLimit) e) :
    e.status = "approved" ↔
      (e.isFullyApproved = true ∧
        (e.approvalFlow = [] →
          applicableApprovers (findActiveRules stored companyId)
            (Expense.create employeeId companyId category amount currency baseCurrency
              conversion) = [] ∧
          conversion.convertedAmount ≤ autoApprovalLimit)) := by
  rcases reachable_cases _ _ hreach with hstart | ⟨hrej, _, a, ha, hs⟩
  · subst hstart
    rcases routeExpense_create employeeId companyId category amount currency baseCurrency
      conversion (applicableApprovers (findActiveRules stored companyId)
        (Expense.create employeeId companyId category amount currency baseCurrency
          conversion)) autoApprovalLimit with ⟨hnil, hle, heq⟩ | ⟨hnil, hle, heq⟩ |
      ⟨first, rest, hcons, heq⟩
    · simp only [postExpense, heq]
      simp only [hnil]
      simp [Expense.isFullyApproved, Expense.create, hle]
    · simp only [postExpense, heq]
      simp only [hnil]
      simp [Expense.isFullyApproved, Expense.create, hle]
    · simp only [postExpense, heq]
      simp [Expense.isFullyApproved, Expense.create, hcons, List.mapIdx_cons]
  · constructor
    · intro happ
      rw [hrej] at happ
      exact absurd happ (by decide)
    · rintro ⟨hfull, _⟩
      exfalso
      have hall : ∀ x ∈ e.approvalFlow, x.status = "approved" := by
        simpa [Expense.isFullyApproved] using hfull
      have := hall a ha
      rcases hs with h | h <;> rw [h] at this <;> exact absurd this (by decide)

/-- Witness of C7: the state `rejectedExpense`, reached from the routed `sequentialExpense`. -/
theorem approved_iff_fully_approved_witness :
    rejectedExpense.status = "approved" ↔
      (rejectedExpense.isFullyApproved = true ∧
        (rejectedExpense.approvalFlow = [] →
          applicableApprovers (findActiveRules [ruleABC] 7)
            (Expense.create 9 7 "Travel" 150 "USD" "USD" { convertedAmount := 150, rate := 1 })
              = [] ∧
          (150 : ℚ) ≤ 100)) :=
  approved_iff_fully_approved 9 7 "Travel" 150 "USD" "USD" { convertedAmount := 150, rate := 1 }
    [ruleABC] 100 rejectedExpense
    (Reachable.single 1 "reject" (some "no receipt") 5 Reachable.refl (by decide) (by decide))

/-- C9. In every expense state produced by creation routing or by an applied approval action
(single or bulk, any action value), `currentApprover` is non-null if and only if the expense
status is `pending` and the chain holds at least one entry with status `pending`. -/
theorem currentApprover_iff (e : Expense) (h : Produced e) :
    e.currentApprover ≠ none ↔
      (e.status = "pending" ∧ ∃ a ∈ e.approvalFlow, a.status = "pending") := by
  have hfinal : ∀ (expense : Expense) (userId : Nat) (action : String)
      (comments : Option String) (now : Nat),
      putApproval (some expense) userId action comments now =
        { verdict := Verdict.applied, expense := some e } →
      (e.currentApprover ≠ none ↔
        (e.status = "pending" ∧ ∃ a ∈ e.approvalFlow, a.status = "pending")) := by
    intro expense userId action comments now hstep
    obtain ⟨hcur, hst, _, _⟩ := applied_final _ _ userId action comments now hstep
    constructor
    · intro hne
      exact absurd hcur hne
    · rintro ⟨hpend, _⟩
      exfalso
      rcases hst with h | h <;> rw [h] at hpend <;> exact absurd hpend (by decide)
  rcases h with ⟨employeeId, companyId, category, amount, currency, baseCurrency, conversion,
      stored, autoApprovalLimit, rfl⟩ | ⟨expense, userId, action, comments, now, hstep⟩ |
    ⟨expense, userId, action, comments, now, hstep⟩
  · rcases routeExpense_create employeeId companyId category amount currency baseCurrency
      conversion (applicableApprovers (findActiveRules stored companyId)
        (Expense.create employeeId companyId category amount currency baseCurrency
          conversion)) autoApprovalLimit with ⟨_, _, heq⟩ | ⟨_, _, heq⟩ |
      ⟨first, rest, _, heq⟩
    · simp only [postExpense, heq]
      simp [Expense.create]
    · simp only [postExpense, heq]
      simp [Expense.create]
    · simp only [postExpense, heq]
      simp [Expense.create, List.mapIdx_cons]
  · exact hfinal expense userId action comments now hstep
  · rw [bulkItem_eq_putApproval] at hstep
    exact hfinal expense userId action comments now hstep

/-- Witness of C9: the routed `sequentialExpense` (pending, chain pending, current approver A). -/
theorem currentApprover_iff_witness :
    sequentialExpense.currentApprover ≠ none ↔
      (sequentialExpense.status = "pending" ∧
        ∃ a ∈ sequentialExpense.approvalFlow, a.status = "pending") :=
  currentApprover_iff sequentialExpense
    (Or.inl ⟨9, 7, "Travel", 150, "USD", "USD", { convertedAmount := 150, rate := 1 },
      [ruleABC], 100, rfl⟩)

/-! ## Auto-approval: claim C10 -/

/-- C10. When no active rule of the company yields approvers for the new expense and the
converted amount is at most the auto-approval limit (equality included), creation routing
sets the status `approved`, leaves the chain empty and `currentApprover` null. -/
theorem auto_approval (employeeId companyId : Nat) (category : String) (amount : ℚ)
    (currency baseCurrency : String) (conversion : Conversion) (stored : List ApprovalRule)
    (autoApprovalLimit : ℚ)
    (hnone : ∀ rule ∈ stored, rule.companyId = companyId → rule.isActive = true →
      rule.getApplicableApprovers (Expense.create employeeId companyId category amount currency
        baseCurrency conversion) = [])
    (hlimit : conversion.convertedAmount ≤ autoApprovalLimit) :
    (postExpense employeeId companyId category amount currency baseCurrency conversion stored
        autoApprovalLimit).status = "approved" ∧
      (postExpense employeeId companyId category amount currency baseCurrency conversion stored
        autoApprovalLimit).approvalFlow = [] ∧
      (postExpense employeeId companyId category amount currency baseCurrency conversion stored
        autoApprovalLimit).currentApprover = none := by
  have hnil : applicableApprovers (findActiveRules stored companyId)
      (Expense.create employeeId companyId category amount currency baseCurrency
        conversion) = [] := by
    rw [applicableApprovers_eq_nil]
    intro rule hrule
    simp only [findActiveRules, List.mem_filter, Bool.and_eq_true, beq_iff_eq] at hrule
    exact hnone rule hrule.1 hrule.2.1 hrule.2.2
  simp only [postExpense, hnil]
  simp [routeExpense, hlimit, Expense.create]

/-- Witness of C10: converted amount 80 and limit 100, then converted amount 100 and limit
100, in a company whose rules are switched off or ask for an amount of at least 500. -/
theorem auto_approval_witness :
    ((postExpense 9 7 "Meals" 80 "USD" "USD" { convertedAmount := 80, rate := 1 }
        [inactiveRule, largeAmountRule] 100).status = "approved" ∧
      (postExpense 9 7 "Meals" 80 "USD" "USD" { convertedAmount := 80, rate := 1 }
        [inactiveRule, largeAmountRule] 100).approvalFlow = [] ∧
      (postExpense 9 7 "Meals" 80 "USD" "USD" { convertedAmount := 80, rate := 1 }
        [inactiveRule, largeAmountRule] 100).currentApprover = none) ∧
    ((postExpense 9 7 "Meals" 100 "USD" "USD" { convertedAmount := 100, rate := 1 }
        [inactiveRule, largeAmountRule] 100).status = "approved" ∧
      (postExpense 9 7 "Meals" 100 "USD" "USD" { convertedAmount := 100, rate := 1 }
        [inactiveRule, largeAmountRule] 100).approvalFlow = [] ∧
      (postExpense 9 7 "Meals" 100 "USD" "USD" { convertedAmount := 100, rate := 1 }
        [inactiveRule, largeAmountRule] 100).currentApprover = none) :=
  ⟨auto_approval 9 7 "Meals" 80 "USD" "USD" { convertedAmount := 80, rate := 1 }
      [inactiveRule, largeAmountRule] 100 (by decide) (by decide),
    auto_approval 9 7 "Meals" 100 "USD" "USD" { convertedAmount := 100, rate := 1 }
      [inactiveRule, largeAmountRule] 100 (by decide) (by decide)⟩

/-! ## The saved document and the schema enums -/

/-- After an applied action with a value that request validation accepts, the acted entry
carries that raw value, which the `enum` of `approvalFlow.status` does not list: the document
the handler passes to `save()` does not satisfy the enum validators of the schema. -/
theorem applied_document_outside_enum (expense e' : Expense) (userId : Nat) (action : String)
    (comments : Option String) (now : Nat)
    (hvalid : validateApproval action comments = true)
    (h : putApproval (some expense) userId action comments now =
      { verdict := Verdict.applied, expense := some e' }) :
    e'.enumsHold = false := by
  obtain ⟨_, _, _, a, ha, hs⟩ := applied_final _ _ userId action comments now h
  have hact := action_of_validateApproval action comments hvalid
  have hnot : entryStatusEnum.contains a.status = false := by
    rw [hs]
    rcases hact with h | h <;> subst h <;> decide
  simp only [Expense.enumsHold, Bool.and_eq_false_iff]
  right
  rw [Bool.eq_false_iff]
  intro hall
  rw [List.all_eq_true] at hall
  have := hall a ha
  rw [hnot] at this
  exact absurd this (by decide)

/-! ## Creation routing: claims C11 and C12 -/

/-- The rule loop returns what the first rule that yields approvers returns. -/
theorem applicableApprovers_first (before after : List ApprovalRule) (rule : ApprovalRule)
    (expense : Expense)
    (hbefore : ∀ r ∈ before, r.getApplicableApprovers expense = [])
    (hrule : rule.getApplicableApprovers expense ≠ []) :
    applicableApprovers (before ++ rule :: after) expense =
      rule.getApplicableApprovers expense := by
  induction before with
  | nil =>
    have hpos : 0 < (rule.getApplicableApprovers expense).length := List.length_pos.2 hrule
    simp [applicableApprovers, hpos]
  | cons r rest ih =>
    have hr : r.getApplicableApprovers expense = [] := hbefore r (List.mem_cons_self r rest)
    have hrest : ∀ r' ∈ rest, r'.getApplicableApprovers expense = [] :=
      fun r' h' => hbefore r' (List.mem_cons_of_mem r h')
    simp [applicableApprovers, hr, ih hrest]

/-- C11 (counterexample). No rule of company 7 applies to the expense of 150 with limit 100
(one rule is switched off, the other asks for 500): creation routing sets the status
`pending` and the chain is empty, with no current approver. -/
theorem unrouted_expense_has_no_chain :
    (∀ rule ∈ [inactiveRule, largeAmountRule],
      rule.getApplicableApprovers
        (Expense.create 9 7 "Travel" 150 "USD" "USD" { convertedAmount := 150, rate := 1 })
        = []) ∧
    ¬ ((150 : ℚ) ≤ 100) ∧
    unroutedExpense.status = "pending" ∧
    unroutedExpense.approvalFlow = [] ∧
    unroutedExpense.currentApprover = none := by
  decide

/-- C11 (amended). When no active rule of the company yields approvers for the new expense and
the converted amount exceeds the auto-approval limit, creation routing sets the status
`pending`, leaves the chain empty and `currentApprover` null. -/
theorem above_limit_pending_without_chain (employeeId companyId : Nat) (category : String)
    (amount : ℚ) (currency baseCurrency : String) (conversion : Conversion)
    (stored : List ApprovalRule) (autoApprovalLimit : ℚ)
    (hnone : ∀ rule ∈ stored, rule.companyId = companyId → rule.isActive = true →
      rule.getApplicableApprovers (Expense.create employeeId companyId category amount currency
        baseCurrency conversion) = [])
    (hlimit : autoApprovalLimit < conversion.convertedAmount) :
    (postExpense employeeId companyId category amount currency baseCurrency conversion stored
        autoApprovalLimit).status = "pending" ∧
      (postExpense employeeId companyId category amount currency baseCurrency conversion stored
        autoApprovalLimit).approvalFlow = [] ∧
      (postExpense employeeId companyId category amount currency baseCurrency conversion stored
        autoApprovalLimit).currentApprover = none := by
  have hnil : applicableApprovers (findActiveRules stored companyId)
      (Expense.create employeeId companyId category amount currency baseCurrency
        conversion) = [] := by
    rw [applicableApprovers_eq_nil]
    intro rule hrule
    simp only [findActiveRules, List.mem_filter, Bool.and_eq_true, beq_iff_eq] at hrule
    exact hnone rule hrule.1 hrule.2.1 hrule.2.2
  have hnot : ¬ conversion.convertedAmount ≤ autoApprovalLimit := not_le.2 hlimit
  simp only [postExpense, hnil]
  simp [routeExpense, hnot, Expense.create]

/-- Witness of C11 (amended): converted amount 150, limit 100, no applicable rule. -/
theorem above_limit_pending_without_chain_witness :
    (postExpense 9 7 "Travel" 150 "USD" "USD" { convertedAmount := 150, rate := 1 }
        [inactiveRule, largeAmountRule] 100).status = "pending" ∧
      (postExpense 9 7 "Travel" 150 "USD" "USD" { convertedAmount := 150, rate := 1 }
        [inactiveRule, largeAmountRule] 100).approvalFlow = [] ∧
      (postExpense 9 7 "Travel" 150 "USD" "USD" { convertedAmount := 150, rate := 1 }
        [inactiveRule, largeAmountRule] 100).currentApprover = none :=
  above_limit_pending_without_chain 9 7 "Travel" 150 "USD" "USD"
    { convertedAmount := 150, rate := 1 } [inactiveRule, largeAmountRule] 100
    (by decide) (by decide)

/-- C12. When the selected rule (the first active rule of the company, in query order, that
yields approvers) yields the list `a1, ..., an`, creation routing sets the status `pending`,
builds a chain of exactly `n` entries whose `i`-th entry has `approverId = ai.userId`, status
`pending` and order `i`, and sets `currentApprover` to `a1.userId`, which is the approver of
the first pending entry of the chain (`getNextApprover`). -/
theorem routed_chain (employeeId companyId : Nat) (category : String) (amount : ℚ)
    (currency baseCurrency : String) (conversion : Conversion) (stored : List ApprovalRule)
    (autoApprovalLimit : ℚ) (before after : List ApprovalRule) (rule : ApprovalRule)
    (first : Approver) (others : List Approver)
    (hquery : findActiveRules stored companyId = before ++ rule :: after)
    (hbefore : ∀ r ∈ before, r.getApplicableApprovers (Expense.create employeeId companyId
      category amount currency baseCurrency conversion) = [])
    (hrule : rule.getApplicableApprovers (Expense.create employeeId companyId category amount
      currency baseCurrency conversion) = first :: others) :
    ∃ e, e = postExpense employeeId companyId category amount currency baseCurrency conversion
        stored autoApprovalLimit ∧
      e.status = "pending" ∧
      e.approvalFlow.length = (first :: others).length ∧
      (∀ (i : Nat) (a : Approver), (first :: others)[i]? = some a →
        e.approvalFlow[i]? = some
          { approverId := a.userId, status := "pending", comments := none,
            actionDate := none, order := i + 1 }) ∧
      e.currentApprover = some first.userId ∧
      e.getNextApprover = some first.userId := by
  have hsel : applicableApprovers (findActiveRules stored companyId)
      (Expense.create employeeId companyId category amount currency baseCurrency
        conversion) = first :: others := by
    rw [hquery, applicableApprovers_first before after rule _ hbefore (by simp [hrule]), hrule]
  refine ⟨_, rfl, ?_, ?_, ?_, ?_, ?_⟩
  · simp only [postExpense, hsel]
    simp [routeExpense]
  · simp only [postExpense, hsel]
    simp [routeExpense]
  · intro i a hia
    simp only [postExpense, hsel]
    simp only [routeExpense, List.length_cons, beq_iff_eq, Nat.add_one_ne_zero, ↓reduceIte,
      ite_self, List.getElem?_mapIdx, hia, Option.map_some']
  · simp only [postExpense, hsel]
    simp [routeExpense]
  · simp only [postExpense, hsel]
    simp [routeExpense, Expense.getNextApprover, List.mapIdx_cons]

/-- Witness of C12: the sequential rule `[A:1, B:2, C:3]` is the only rule of company 7. -/
theorem routed_chain_witness :
    ∃ e, e = postExpense 9 7 "Travel" 150 "USD" "USD" { convertedAmount := 150, rate := 1 }
        [ruleABC] 100 ∧
      e.status = "pending" ∧
      e.approvalFlow.length = (ruleABC.approvers).length ∧
      (∀ (i : Nat) (a : Approver), (ruleABC.approvers)[i]? = some a →
        e.approvalFlow[i]? = some
          { approverId := a.userId, status := "pending", comments := none,
            actionDate := none, order := i + 1 }) ∧
      e.currentApprover = some 1 ∧
      e.getNextApprover = some 1 :=
  routed_chain 9 7 "Travel" 150 "USD" "USD" { convertedAmount := 150, rate := 1 } [ruleABC] 100
    [] [] ruleABC
    { userId := 1, role := "manager", order := 1, isRequired := true, canDelegate := false }
    [ { userId := 2, role := "finance", order := 2, isRequired := true, canDelegate := false },
      { userId := 3, role := "director", order := 3, isRequired := true,
        canDelegate := false } ]
    (by decide) (by decide) (by decide)

/-! ## Rule evaluation: claims C13, C14, C16, C17 -/

/-- A rule that fails one of the three filters yields no approvers. -/
theorem getApplicableApprovers_of_not_passes (rule : ApprovalRule) (expense : Expense)
    (h : ¬ rule.passesFilters expense) : rule.getApplicableApprovers expense = [] := by
  unfold ApprovalRule.passesFilters at h
  unfold ApprovalRule.getApplicableApprovers
  by_cases h1 : rule.isActive = true
  · by_cases h2 : rule.conditions.amountThreshold > 0 ∧
        expense.convertedAmount < rule.conditions.amountThreshold
    · simp [h1, h2]
    · by_cases h3 : rule.conditions.categories.length > 0 ∧
          (!rule.conditions.categories.contains expense.category) = true
      · have h3' : expense.category ∉ rule.conditions.categories := by simpa using h3.2
        simp [h1, h2, h3.1, h3']
      · exfalso
        apply h
        refine ⟨h1, ?_, ?_⟩
        · by_cases hpos : rule.conditions.amountThreshold > 0
          · right
            exact not_lt.1 (fun hlt => h2 ⟨hpos, hlt⟩)
          · exact Or.inl hpos
        · by_cases hnil : rule.conditions.categories = []
          · exact Or.inl hnil
          · right
            have hlen : rule.conditions.categories.length > 0 := List.length_pos.2 hnil
            by_contra hmem
            apply h3
            refine ⟨hlen, ?_⟩
            simpa using hmem
  · simp [h1]

/-- A rule that passes the three filters yields its approvers as its type prescribes. -/
theorem getApplicableApprovers_of_passes (rule : ApprovalRule) (expense : Expense)
    (h : rule.passesFilters expense) :
    rule.getApplicableApprovers expense =
      if rule.ruleType = "sequential" then
        rule.approvers.insertionSort (fun a b => a.order ≤ b.order)
      else if rule.ruleType = "percentage" then rule.approvers
      else if rule.ruleType = "conditional" then
        rule.approvers.filter (fun approver => rule.checkConditionalRules expense approver)
      else rule.approvers := by
  obtain ⟨h1, h2, h3⟩ := h
  unfold ApprovalRule.getApplicableApprovers
  have c2 : ¬ (rule.conditions.amountThreshold > 0 ∧
      expense.convertedAmount < rule.conditions.amountThreshold) := by
    rintro ⟨hpos, hlt⟩
    rcases h2 with h2 | h2
    · exact h2 hpos
    · exact absurd hlt (not_lt.2 h2)
  rcases h3 with h3 | h3
  · simp [h1, c2, h3]
  · simp [h1, c2, h3]

/-- The insertion sort keeps a list non-empty. -/
theorem insertionSort_ne_nil (approvers : List Approver) (h : approvers ≠ []) :
    approvers.insertionSort (fun a b => a.order ≤ b.order) ≠ [] := by
  intro hnil
  have hperm := List.perm_insertionSort (fun a b : Approver => a.order ≤ b.order) approvers
  rw [hnil] at hperm
  exact h (List.Perm.nil_eq hperm).symm

/-- C13. For every rule with at least one approver and rule type `sequential` or `percentage`
and every expense, `getApplicableApprovers` returns a non-empty list if and only if the rule
is active, and the amount threshold is not positive or the converted amount is at least the
threshold, and the category list is empty or contains the category of the expense; otherwise
it returns the empty list. -/
theorem applicable_iff_filters (rule : ApprovalRule) (expense : Expense)
    (happrovers : rule.approvers ≠ [])
    (htype : rule.ruleType = "sequential" ∨ rule.ruleType = "percentage") :
    (rule.getApplicableApprovers expense ≠ [] ↔
      (rule.isActive = true ∧
        (¬ rule.conditions.amountThreshold > 0 ∨
          expense.convertedAmount ≥ rule.conditions.amountThreshold) ∧
        (rule.conditions.categories = [] ∨
          expense.category ∈ rule.conditions.categories))) ∧
    (¬ (rule.isActive = true ∧
        (¬ rule.conditions.amountThreshold > 0 ∨
          expense.convertedAmount ≥ rule.conditions.amountThreshold) ∧
        (rule.conditions.categories = [] ∨
          expense.category ∈ rule.conditions.categories)) →
      rule.getApplicableApprovers expense = []) := by
  have hno : ¬ rule.passesFilters expense → rule.getApplicableApprovers expense = [] :=
    getApplicableApprovers_of_not_passes rule expense
  refine ⟨⟨?_, ?_⟩, hno⟩
  · intro hne
    by_contra hnot
    exact hne (hno hnot)
  · intro hpass
    rw [getApplicableApprovers_of_passes rule expense hpass]
    rcases htype with h | h
    · simp only [h, ↓reduceIte]
      exact insertionSort_ne_nil rule.approvers happrovers
    · have hns : ¬ rule.ruleType = "sequential" := by
        rw [h]
        decide
      simp only [hns, h, ↓reduceIte]
      exact happrovers

/-- Witness of C13: the sequential rule `ruleABC` on the routed expense of 150 USD. -/
theorem applicable_iff_filters_witness :
    (ruleABC.getApplicableApprovers sequentialExpense ≠ [] ↔
      (ruleABC.isActive = true ∧
        (¬ ruleABC.conditions.amountThreshold > 0 ∨
          sequentialExpense.convertedAmount ≥ ruleABC.conditions.amountThreshold) ∧
        (ruleABC.conditions.categories = [] ∨
          sequentialExpense.category ∈ ruleABC.conditions.categories))) ∧
    (¬ (ruleABC.isActive = true ∧
        (¬ ruleABC.conditions.amountThreshold > 0 ∨
          sequentialExpense.convertedAmount ≥ ruleABC.conditions.amountThreshold) ∧
        (ruleABC.conditions.categories = [] ∨
          sequentialExpense.category ∈ ruleABC.conditions.categories)) →
      ruleABC.getApplicableApprovers sequentialExpense = []) :=
  applicable_iff_filters ruleABC sequentialExpense (by decide) (Or.inl rfl)

/-- C14 (counterexample). The stored conditions of `euroSalesRule` name the department `Sales`
and the currency `EUR` only; the expense is in `USD`; `getApplicableApprovers` still returns
the three approvers of the rule. -/
theorem currency_condition_not_applied :
    euroSalesRule.conditions.currencies ≠ [] ∧
    sequentialExpense.currency ∉ euroSalesRule.conditions.currencies ∧
    euroSalesRule.conditions.departments ≠ [] ∧
    (euroSalesRule.getApplicableApprovers sequentialExpense).map (fun a => a.userId) =
      [1, 2, 3] := by
  decide

/-- C14 (amended). `getApplicableApprovers` reads neither `conditions.departments` nor
`conditions.currencies` nor the currency of the expense: whatever these are, the result is the
same, so they never make a rule inapplicable. -/
theorem departments_currencies_not_read (rule : ApprovalRule) (expense : Expense)
    (departments currencies : List String) (currency : String) :
    ApprovalRule.getApplicableApprovers
        { rule with
          conditions :=
            { rule.conditions with departments := departments, currencies := currencies } }
        { expense with currency := currency } =
      rule.getApplicableApprovers expense := by
  rfl

/-- The order relation of the sort is total. -/
theorem approver_order_total : IsTotal Approver (fun a b => a.order ≤ b.order) :=
  ⟨fun a b => Nat.le_total a.order b.order⟩

/-- The order relation of the sort is transitive. -/
theorem approver_order_trans : IsTrans Approver (fun a b => a.order ≤ b.order) :=
  ⟨fun _ _ _ hab hbc => Nat.le_trans hab hbc⟩

/-- C16. For every applicable rule of type `sequential`, `getApplicableApprovers` returns a
permutation of the approvers of the rule, sorted in non-decreasing order of `order`. -/
theorem sequential_sorted_perm (rule : ApprovalRule) (expense : Expense)
    (hpass : rule.passesFilters expense) (htype : rule.ruleType = "sequential") :
    (rule.getApplicableApprovers expense).Perm rule.approvers ∧
      List.Pairwise (fun a b => a.order ≤ b.order) (rule.getApplicableApprovers expense) := by
  rw [getApplicableApprovers_of_passes rule expense hpass]
  simp only [htype, ↓reduceIte]
  haveI := approver_order_total
  haveI := approver_order_trans
  exact ⟨List.perm_insertionSort _ _, List.sorted_insertionSort _ _⟩

/-- Witness of C16: the approvers stored as `C:3, A:1, B:2` come out as A, B, C. -/
theorem sequential_sorted_perm_witness :
    (shuffledRule.getApplicableApprovers sequentialExpense).Perm shuffledRule.approvers ∧
      List.Pairwise (fun a b => a.order ≤ b.order)
        (shuffledRule.getApplicableApprovers sequentialExpense) :=
  sequential_sorted_perm shuffledRule sequentialExpense (by decide) rfl

/-- What `checkConditionalRules` computes for one entry: the specification's reading for the
three conditions it has a `case` for, and `true` for every other condition. -/
theorem checkConditionalRules_eq (rule : ApprovalRule) (expense : Expense)
    (approver : Approver) (department : String) :
    rule.checkConditionalRules expense approver =
      rule.conditionalRules.all
        (fun r => !evaluatedCondition r || specConditionHolds department expense r) := by
  unfold ApprovalRule.checkConditionalRules
  congr 1
  funext r
  unfold evaluatedCondition specConditionHolds
  by_cases h1 : r.condition = "amount_greater_than"
  · simp [h1]
  · by_cases h2 : r.condition = "amount_less_than"
    · simp [h2]
    · by_cases h3 : r.condition = "category_equals"
      · simp [h3]
      · simp [h1, h2, h3]

/-- C17 (counterexample). The one entry of the conditional rule `salesRule` asks for the
department `Sales`; for an expense of an employee of the department `Engineering` the entry
does not hold in the specification's reading, and `getApplicableApprovers` still returns the
approvers of the rule. -/
theorem department_condition_not_evaluated :
    salesRule.passesFilters sequentialExpense ∧
    salesRule.ruleType = "conditional" ∧
    salesRule.conditionalRules.all (specConditionHolds "Engineering" sequentialExpense) = false ∧
    salesRule.approvers ≠ [] ∧
    salesRule.getApplicableApprovers sequentialExpense = salesRule.approvers := by
  decide

/-- C17 (amended). For every applicable rule of type `conditional`, `getApplicableApprovers`
returns the approvers of the rule when every entry of `conditionalRules` whose condition is
`amount_greater_than`, `amount_less_than` or `category_equals` holds for the expense
(`convertedAmount > value`, `convertedAmount < value`, `category = value`), and the empty list
otherwise; an entry with another condition, `department_equals` included, is not evaluated:
the result is the same for every department. -/
theorem conditional_approvers (rule : ApprovalRule) (expense : Expense) (department : String)
    (hpass : rule.passesFilters expense) (htype : rule.ruleType = "conditional") :
    rule.getApplicableApprovers expense =
      if rule.conditionalRules.all
          (fun r => !evaluatedCondition r || specConditionHolds department expense r) = true
      then rule.approvers else [] := by
  rw [getApplicableApprovers_of_passes rule expense hpass]
  have hs : ¬ rule.ruleType = "sequential" := by
    rw [htype]
    decide
  have hp : ¬ rule.ruleType = "percentage" := by
    rw [htype]
    decide
  simp only [hs, hp, htype, ↓reduceIte]
  have hconst : ∀ approver : Approver, rule.checkConditionalRules expense approver =
      rule.conditionalRules.all
        (fun r => !evaluatedCondition r || specConditionHolds department expense r) :=
    fun approver => checkConditionalRules_eq rule expense approver department
  simp only [hconst]
  by_cases hall : rule.conditionalRules.all
      (fun r => !evaluatedCondition r || specConditionHolds department expense r) = true
  · simp [hall]
  · simp [hall]

/-- Witness of C17 (amended): the entry `amount_greater_than 100` on the expense of 150. -/
theorem conditional_approvers_witness :
    (actionRule "add_approver").getApplicableApprovers sequentialExpense =
      if (actionRule "add_approver").conditionalRules.all
          (fun r => !evaluatedCondition r ||
            specConditionHolds "Engineering" sequentialExpense r) = true
      then (actionRule "add_approver").approvers else [] :=
  conditional_approvers (actionRule "add_approver") sequentialExpense "Engineering"
    (by decide) rfl

/-! ## Rule selection: claim C15 -/

/-- The rule loop returns the empty list or the approvers of one of the rules that yield
any. -/
theorem applicableApprovers_mem (approvalRules : List ApprovalRule) (expense : Expense) :
    applicableApprovers approvalRules expense = [] ∨
      ∃ rule ∈ approvalRules, rule.getApplicableApprovers expense ≠ [] ∧
        applicableApprovers approvalRules expense = rule.getApplicableApprovers expense := by
  induction approvalRules with
  | nil => exact Or.inl rfl
  | cons rule rest ih =>
    by_cases h : rule.getApplicableApprovers expense = []
    · rcases ih with ih | ⟨r, hr, hne, heq⟩
      · left
        simp [applicableApprovers, h, ih]
      · right
        refine ⟨r, List.mem_cons_of_mem rule hr, hne, ?_⟩
        simp [applicableApprovers, h, heq]
    · right
      have hpos : 0 < (rule.getApplicableApprovers expense).length := List.length_pos.2 h
      exact ⟨rule, List.mem_cons_self rule rest, h, by simp [applicableApprovers, hpos]⟩

/-- Two orderings of the same rules give the same loop result when all rules that yield
approvers yield the same list. -/
theorem applicableApprovers_perm (rules₁ rules₂ : List ApprovalRule) (expense : Expense)
    (hperm : rules₁.Perm rules₂)
    (hsame : ∀ r ∈ rules₁, ∀ r' ∈ rules₁, r.getApplicableApprovers expense ≠ [] →
      r'.getApplicableApprovers expense ≠ [] →
      r.getApplicableApprovers expense = r'.getApplicableApprovers expense) :
    applicableApprovers rules₁ expense = applicableApprovers rules₂ expense := by
  rcases applicableApprovers_mem rules₁ expense with h1 | ⟨r, hr, hne, heq⟩
  · have hall := (applicableApprovers_eq_nil rules₁ expense).1 h1
    have h2 : applicableApprovers rules₂ expense = [] :=
      (applicableApprovers_eq_nil rules₂ expense).2
        (fun r hr => hall r (hperm.mem_iff.2 hr))
    rw [h1, h2]
  · rcases applicableApprovers_mem rules₂ expense with h2 | ⟨r', hr', hne', heq'⟩
    · exfalso
      have hall := (applicableApprovers_eq_nil rules₂ expense).1 h2
      exact hne (hall r (hperm.mem_iff.1 hr))
    · rw [heq, heq']
      exact hsame r hr r' (hperm.mem_iff.2 hr') hne hne'

/-- C15 (counterexample). The rules `ruleABC` and `ruleD` of company 7 are both active and
both match the expense; stored in the order `ruleABC, ruleD` routing builds the chain A, B, C,
stored in the order `ruleD, ruleABC` it builds the chain D. -/
theorem selection_follows_storage_order :
    [ruleABC, ruleD].Perm [ruleD, ruleABC] ∧
    (postExpense 9 7 "Travel" 150 "USD" "USD" { convertedAmount := 150, rate := 1 }
      [ruleABC, ruleD] 100).approvalFlow.map (fun a => a.approverId) = [1, 2, 3] ∧
    (postExpense 9 7 "Travel" 150 "USD" "USD" { convertedAmount := 150, rate := 1 }
      [ruleD, ruleABC] 100).approvalFlow.map (fun a => a.approverId) = [4] := by
  refine ⟨List.Perm.swap _ _ _, by decide, by decide⟩

/-- C15 (amended). Creation routing takes the first active rule of the company, in the order
the query returns the rules, that yields approvers. For two orderings of the same stored rules
it derives the same expense whenever all active rules of the company that yield approvers for
the expense yield the same list, in particular when at most one rule matches. -/
theorem selection_order_independent (employeeId companyId : Nat) (category : String)
    (amount : ℚ) (currency baseCurrency : String) (conversion : Conversion)
    (stored₁ stored₂ : List ApprovalRule) (autoApprovalLimit : ℚ)
    (hperm : stored₁.Perm stored₂)
    (hsame : ∀ r ∈ findActiveRules stored₁ companyId,
      ∀ r' ∈ findActiveRules stored₁ companyId,
      r.getApplicableApprovers (Expense.create employeeId companyId category amount currency
        baseCurrency conversion) ≠ [] →
      r'.getApplicableApprovers (Expense.create employeeId companyId category amount currency
        baseCurrency conversion) ≠ [] →
      r.getApplicableApprovers (Expense.create employeeId companyId category amount currency
        baseCurrency conversion) =
      r'.getApplicableApprovers (Expense.create employeeId companyId category amount currency
        baseCurrency conversion)) :
    (∀ (before after : List ApprovalRule) (rule : ApprovalRule),
      findActiveRules stored₁ companyId = before ++ rule :: after →
      (∀ r ∈ before, r.getApplicableApprovers (Expense.create employeeId companyId category
        amount currency baseCurrency conversion) = []) →
      rule.getApplicableApprovers (Expense.create employeeId companyId category amount
        currency baseCurrency conversion) ≠ [] →
      applicableApprovers (findActiveRules stored₁ companyId) (Expense.create employeeId
        companyId category amount currency baseCurrency conversion) =
        rule.getApplicableApprovers (Expense.create employeeId companyId category amount
          currency baseCurrency conversion)) ∧
    postExpense employeeId companyId category amount currency baseCurrency conversion stored₁
        autoApprovalLimit =
      postExpense employeeId companyId category amount currency baseCurrency conversion
        stored₂ autoApprovalLimit := by
  constructor
  · intro before after rule hquery hbefore hrule
    rw [hquery]
    exact applicableApprovers_first before after rule _ hbefore hrule
  · have hfilter : (findActiveRules stored₁ companyId).Perm
        (findActiveRules stored₂ companyId) := hperm.filter _
    simp only [postExpense]
    rw [applicableApprovers_perm _ _ _ hfilter hsame]

/-- Witness of C15 (amended): of the two rules only `ruleABC` yields approvers (the other one
asks for an amount of at least 500), in either order. -/
theorem selection_order_independent_witness :
    postExpense 9 7 "Travel" 150 "USD" "USD" { convertedAmount := 150, rate := 1 }
        [ruleABC, largeAmountRule] 100 =
      postExpense 9 7 "Travel" 150 "USD" "USD" { convertedAmount := 150, rate := 1 }
        [largeAmountRule, ruleABC] 100 :=
  (selection_order_independent 9 7 "Travel" 150 "USD" "USD"
    { convertedAmount := 150, rate := 1 } [ruleABC, largeAmountRule]
    [largeAmountRule, ruleABC] 100 (List.Perm.swap _ _ _) (by decide)).2

/-! ## Fields that routing does not read: claims C18 and C19 -/

/-- Creation routing gives the same expense when every stored rule is replaced by a rule with
the same company, the same `isActive` and the same applicable approvers. -/
theorem postExpense_map_congr (g : ApprovalRule → ApprovalRule)
    (hcompany : ∀ rule, (g rule).companyId = rule.companyId)
    (hactive : ∀ rule, (g rule).isActive = rule.isActive)
    (happrovers : ∀ rule expense,
      (g rule).getApplicableApprovers expense = rule.getApplicableApprovers expense)
    (employeeId companyId : Nat) (category : String) (amount : ℚ)
    (currency baseCurrency : String) (conversion : Conversion) (stored : List ApprovalRule)
    (autoApprovalLimit : ℚ) :
    postExpense employeeId companyId category amount currency baseCurrency conversion
        (stored.map g) autoApprovalLimit =
      postExpense employeeId companyId category amount currency baseCurrency conversion stored
        autoApprovalLimit := by
  have hloop : ∀ (rules : List ApprovalRule) (expense : Expense),
      applicableApprovers (rules.map g) expense = applicableApprovers rules expense := by
    intro rules expense
    induction rules with
    | nil => rfl
    | cons rule rest ih => simp [applicableApprovers, happrovers, ih]
  have hquery : findActiveRules (stored.map g) companyId =
      (findActiveRules stored companyId).map g := by
    simp only [findActiveRules, List.filter_map]
    congr 1
    apply List.filter_congr
    intro rule _
    simp [hcompany, hactive]
  simp only [postExpense, hquery, hloop]

/-- C18 (counterexample). The entry `amount_greater_than 100` of the conditional rule holds
for the expense of 150 and declares `auto_approve`, respectively `auto_reject`: creation
routing builds the pending chain A, B, C with current approver A in both cases. -/
theorem auto_action_creates_pending_chain :
    (actionRule "auto_approve").conditionalRules.all
      (specConditionHolds "Engineering" sequentialExpense) = true ∧
    (actionRule "auto_approve").conditionalRules.map (fun r => r.action) = ["auto_approve"] ∧
    (actionRule "auto_reject").conditionalRules.map (fun r => r.action) = ["auto_reject"] ∧
    (fun e : Expense => (e.status, e.currentApprover, e.approvalFlow.map (fun a => a.approverId)))
      (postExpense 9 7 "Travel" 150 "USD" "USD" { convertedAmount := 150, rate := 1 }
        [actionRule "auto_approve"] 100) = ("pending", some 1, [1, 2, 3]) ∧
    (fun e : Expense => (e.status, e.currentApprover, e.approvalFlow.map (fun a => a.approverId)))
      (postExpense 9 7 "Travel" 150 "USD" "USD" { convertedAmount := 150, rate := 1 }
        [actionRule "auto_reject"] 100) = ("pending", some 1, [1, 2, 3]) := by
  decide

/-- C18 (amended). Rule evaluation and creation routing do not read the `action` nor the
`targetApprover` of the entries of `conditionalRules`: when these two fields of every entry of
every stored rule are replaced by arbitrary values, `getApplicableApprovers` returns the same
list and creation routing builds the same expense. No action short-circuits routing. -/
theorem action_field_not_read (newAction : ConditionalRule → String)
    (newTarget : ConditionalRule → Option Nat)
    (employeeId companyId : Nat) (category : String) (amount : ℚ)
    (currency baseCurrency : String) (conversion : Conversion) (stored : List ApprovalRule)
    (autoApprovalLimit : ℚ) :
    (∀ (rule : ApprovalRule) (expense : Expense),
      ApprovalRule.getApplicableApprovers
          { rule with
            conditionalRules := rule.conditionalRules.map
              (fun r => { r with action := newAction r, targetApprover := newTarget r }) }
          expense =
        rule.getApplicableApprovers expense) ∧
    postExpense employeeId companyId category amount currency baseCurrency conversion
        (stored.map (fun rule =>
          { rule with
            conditionalRules := rule.conditionalRules.map
              (fun r => { r with action := newAction r, targetApprover := newTarget r }) }))
        autoApprovalLimit =
      postExpense employeeId companyId category amount currency baseCurrency conversion stored
        autoApprovalLimit := by
  have hrule : ∀ (rule : ApprovalRule) (expense : Expense),
      ApprovalRule.getApplicableApprovers
          { rule with
            conditionalRules := rule.conditionalRules.map
              (fun r => { r with action := newAction r, targetApprover := newTarget r }) }
          expense =
        rule.getApplicableApprovers expense := by
    intro rule expense
    simp only [ApprovalRule.getApplicableApprovers, ApprovalRule.checkConditionalRules,
      List.all_map]
    rfl
  exact ⟨hrule, postExpense_map_congr
    (fun rule =>
      { rule with
        conditionalRules := rule.conditionalRules.map
          (fun r => { r with action := newAction r, targetApprover := newTarget r }) })
    (fun _ => rfl) (fun _ => rfl) hrule _ _ _ _ _ _ _ _ _⟩

/-- C19 (counterexample). The expense routed by the percentage rule with `minPercentage = 60`
and the approvers A, B, C is pending with three pending entries. A and then B send the
validated action `approve`: after the second approval of three the stored expense is not
`approved`; its status is `pending` as before. -/
theorem percentage_second_approval_not_approved :
    percentageRule.ruleType = "percentage" ∧
    percentageRule.percentageRules.minPercentage = 60 ∧
    percentageExpense.status = "pending" ∧
    percentageExpense.approvalFlow.map (fun a => (a.approverId, a.status)) =
      [(1, "pending"), (2, "pending"), (3, "pending")] ∧
    validateApproval "approve" none = true ∧
    (approvalRequest (some percentageExpense) 1 "approve" none 5 false false).stored =
      some percentageExpense ∧
    (approvalRequest
      (approvalRequest (some percentageExpense) 1 "approve" none 5 false false).stored
      2 "approve" none 6 false false).stored = some percentageExpense ∧
    (approvalRequest
      (approvalRequest (some percentageExpense) 1 "approve" none 5 false false).stored
      2 "approve" none 6 false false).stored.map (fun e => e.status) ≠ some "approved" := by
  decide

/-- C19 (amended). A percentage rule that passes the filters contributes its approvers in
their stored order, and neither creation routing nor the approval route reads
`percentageRules` (`minPercentage`, `requireAll`): when the `percentageRules` of every stored
rule are replaced by arbitrary values, creation routing builds the same expense, the handler
assigns the same document for every approval action on it, and every approval request on it
has the same reply and leaves the same stored expense. No completion by percentage exists. -/
theorem percentage_rules_not_read (newPercentage : ApprovalRule → PercentageRules)
    (employeeId companyId : Nat) (category : String) (amount : ℚ)
    (currency baseCurrency : String) (conversion : Conversion) (stored : List ApprovalRule)
    (autoApprovalLimit : ℚ) :
    (∀ (rule : ApprovalRule) (expense : Expense), rule.passesFilters expense →
      rule.ruleType = "percentage" → rule.getApplicableApprovers expense = rule.approvers) ∧
    postExpense employeeId companyId category amount currency baseCurrency conversion
        (stored.map (fun rule => { rule with percentageRules := newPercentage rule }))
        autoApprovalLimit =
      postExpense employeeId companyId category amount currency baseCurrency conversion stored
        autoApprovalLimit ∧
    (∀ (userId : Nat) (action : String) (comments : Option String) (now : Nat),
      putApproval (some (postExpense employeeId companyId category amount currency
          baseCurrency conversion
          (stored.map (fun rule => { rule with percentageRules := newPercentage rule }))
          autoApprovalLimit)) userId action comments now =
        putApproval (some (postExpense employeeId companyId category amount currency
          baseCurrency conversion stored autoApprovalLimit)) userId action comments now) ∧
    (∀ (userId : Nat) (action : String) (comments : Option String) (now : Nat)
        (notifyNextRejects notifyOwnerRejects : Bool),
      approvalRequest (some (postExpense employeeId companyId category amount currency
          baseCurrency conversion
          (stored.map (fun rule => { rule with percentageRules := newPercentage rule }))
          autoApprovalLimit)) userId action comments now notifyNextRejects
          notifyOwnerRejects =
        approvalRequest (some (postExpense employeeId companyId category amount currency
          baseCurrency conversion stored autoApprovalLimit)) userId action comments now
          notifyNextRejects notifyOwnerRejects) := by
  have hpost : postExpense employeeId companyId category amount currency baseCurrency
        conversion (stored.map (fun rule => { rule with percentageRules := newPercentage rule }))
        autoApprovalLimit =
      postExpense employeeId companyId category amount currency baseCurrency conversion stored
        autoApprovalLimit :=
    postExpense_map_congr (fun rule => { rule with percentageRules := newPercentage rule })
      (fun _ => rfl) (fun _ => rfl) (fun _ _ => rfl) _ _ _ _ _ _ _ _ _
  refine ⟨?_, hpost, ?_, ?_⟩
  · intro rule expense hpass htype
    rw [getApplicableApprovers_of_passes rule expense hpass]
    have hs : ¬ rule.ruleType = "sequential" := by
      rw [htype]
      decide
    rw [if_neg hs, if_pos htype]
  · intro userId action comments now
    rw [hpost]
  · intro userId action comments now notifyNextRejects notifyOwnerRejects
    rw [hpost]

/-! ## The bulk loop -/

/-- One pass of the loop for an id that `findById` does not find: the literal error
`Expense not found` is pushed, nothing else changes, and the loop goes on. -/
theorem bulkStep_unknown (userId : Nat) (action : String) (comments : Option String)
    (now : Nat) (saveRejects notifyRejects : Nat → Bool) (s : BulkState) (expenseId : Nat)
    (h : s.store expenseId = none) :
    (bulkStep userId action comments now saveRejects notifyRejects s expenseId).results =
        s.results ∧
      (bulkStep userId action comments now saveRejects notifyRejects s expenseId).errors =
        s.errors ++ [(expenseId, BulkError.expenseNotFound)] ∧
      (bulkStep userId action comments now saveRejects notifyRejects s expenseId).store =
        s.store := by
  simp [bulkStep, bulkItem, h]

/-- One pass of the loop adds exactly one element to `results` and `errors` together when the
notification of that id is created. -/
theorem bulkStep_count (userId : Nat) (action : String) (comments : Option String)
    (now : Nat) (saveRejects notifyRejects : Nat → Bool) (s : BulkState) (expenseId : Nat)
    (hnotify : notifyRejects expenseId = false) :
    (bulkStep userId action comments now saveRejects notifyRejects s expenseId).results.length +
        (bulkStep userId action comments now saveRejects notifyRejects s
          expenseId).errors.length =
      s.results.length + s.errors.length + 1 := by
  unfold bulkStep
  cases hv : (bulkItem (s.store expenseId) userId action comments now).verdict with
  | notFound =>
    simp only [hv, List.length_append, List.length_cons, List.length_nil]
    omega
  | notAuthorized =>
    simp only [hv, List.length_append, List.length_cons, List.length_nil]
    omega
  | applied =>
    by_cases hs : saveRejects expenseId = true
    · simp only [hv, hs, ↓reduceIte, List.length_append, List.length_cons, List.length_nil]
      omega
    · simp only [hv, hs, hnotify, ↓reduceIte, List.length_append, List.length_cons,
        List.length_nil, Bool.false_eq_true]
      omega

/-- When every owner notification is created, the loop reports each id exactly once:
`processed + errors` is the number of ids. -/
theorem putBulk_count (store : Nat → Option Expense) (expenseIds : List Nat) (userId : Nat)
    (action : String) (comments : Option String) (now : Nat)
    (saveRejects notifyRejects : Nat → Bool)
    (hnotify : ∀ expenseId, notifyRejects expenseId = false) :
    (putBulk store expenseIds userId action comments now saveRejects
        notifyRejects).results.length +
      (putBulk store expenseIds userId action comments now saveRejects
        notifyRejects).errors.length = expenseIds.length := by
  have hfold : ∀ (ids : List Nat) (s : BulkState),
      (ids.foldl (bulkStep userId action comments now saveRejects notifyRejects)
          s).results.length +
        (ids.foldl (bulkStep userId action comments now saveRejects notifyRejects)
          s).errors.length = s.results.length + s.errors.length + ids.length := by
    intro ids
    induction ids with
    | nil => intro s; rfl
    | cons expenseId rest ih =>
      intro s
      rw [List.foldl_cons, ih, bulkStep_count userId action comments now saveRejects
        notifyRejects s expenseId (hnotify expenseId), List.length_cons]
      omega
  have := hfold expenseIds { store := store, results := [], errors := [] }
  simpa [putBulk] using this

/-! ## Single and bulk handler side by side: claim C21 -/

/-- The branch `Move to next approver` is never taken: `nextApproval` is never computed. -/
theorem nextApprovalOf_eq_none (expense : Expense) (userId : Nat)
    (userApproval : ApprovalEntry) (action : String) (comments : Option String) (now : Nat) :
    nextApprovalOf expense userId userApproval action comments now = none := by
  simp [nextApprovalOf, remainingApprovals_nil]

/-- The reply and the stored document of the single handler, by the verdict of `putApproval`
and the two awaited calls that can be reached. -/
theorem putApprovalRoute_eq (found : Option Expense) (userId : Nat) (action : String)
    (comments : Option String) (now : Nat)
    (notifyNextRejects saveRejects notifyOwnerRejects : Bool) :
    putApprovalRoute found userId action comments now notifyNextRejects saveRejects
        notifyOwnerRejects =
      match (putApproval found userId action comments now).verdict with
      | Verdict.notFound => { reply := Reply.notFound, stored := found }
      | Verdict.notAuthorized => { reply := Reply.forbidden, stored := found }
      | Verdict.applied =>
        if saveRejects then { reply := Reply.serverError, stored := found }
        else if notifyOwnerRejects then
          { reply := Reply.serverError
            stored := (putApproval found userId action comments now).expense }
        else
          { reply := Reply.ok
            stored := (putApproval found userId action comments now).expense } := by
  cases found with
  | none => rfl
  | some expense =>
    simp only [putApprovalRoute, putApproval]
    cases h : expense.approvalFlow.find? (isUserApproval userId) with
    | none => rfl
    | some userApproval => simp [nextApprovalOf_eq_none]

/-- C21. For every expense, caller, action and comments the loop body of the bulk handler
leaves the same document as the single handler (the acted entry, the expense status,
`currentApprover`, `rejectionReason` and every other path). Under the same outcomes of
`save()` and `Notification.create`, the bulk handler pushes an error for the id exactly when
the single handler does not answer 200, and the collection holds the same document for the id
afterwards. -/
theorem bulk_refines_single (found : Option Expense) (userId : Nat) (action : String)
    (comments : Option String) (now : Nat) (s : BulkState) (expenseId : Nat)
    (saveRejects notifyRejects : Nat → Bool) (notifyNextRejects : Bool)
    (hfound : s.store expenseId = found) :
    bulkItem found userId action comments now = putApproval found userId action comments now ∧
    ((∃ err, (bulkStep userId action comments now saveRejects notifyRejects s expenseId).errors =
        s.errors ++ [(expenseId, err)]) ↔
      (putApprovalRoute found userId action comments now notifyNextRejects
        (saveRejects expenseId) (notifyRejects expenseId)).reply ≠ Reply.ok) ∧
    (bulkStep userId action comments now saveRejects notifyRejects s expenseId).store expenseId =
      (putApprovalRoute found userId action comments now notifyNextRejects
        (saveRejects expenseId) (notifyRejects expenseId)).stored := by
  refine ⟨bulkItem_eq_putApproval found userId action comments now, ?_, ?_⟩
  · rw [putApprovalRoute_eq]
    simp only [bulkStep, hfound, bulkItem_eq_putApproval]
    cases hv : (putApproval found userId action comments now).verdict with
    | notFound => simp
    | notAuthorized => simp
    | applied =>
      by_cases hs : saveRejects expenseId = true
      · simp [hs]
      · by_cases hn : notifyRejects expenseId = true
        · simp [hs, hn]
        · simp [hs, hn]
  · rw [putApprovalRoute_eq]
    simp only [bulkStep, hfound, bulkItem_eq_putApproval]
    cases hv : (putApproval found userId action comments now).verdict with
    | notFound => simp [hfound]
    | notAuthorized => simp [hfound]
    | applied =>
      by_cases hs : saveRejects expenseId = true
      · simp [hs, hfound]
      · by_cases hn : notifyRejects expenseId = true
        · simp [hs, hn]
        · simp [hs, hn]

/-- Witness of C21: the id 100 of `bulkStore`, acted on by A, with no rejected call. -/
theorem bulk_refines_single_witness :
    bulkItem (some sequentialExpense) 1 "approve" none 5 =
      putApproval (some sequentialExpense) 1 "approve" none 5 ∧
    ((∃ err, (bulkStep 1 "approve" none 5 (fun _ => false) (fun _ => false)
        { store := bulkStore, results := [], errors := [] } 100).errors =
        [] ++ [(100, err)]) ↔
      (putApprovalRoute (some sequentialExpense) 1 "approve" none 5 false
        false false).reply ≠ Reply.ok) ∧
    (bulkStep 1 "approve" none 5 (fun _ => false) (fun _ => false)
        { store := bulkStore, results := [], errors := [] } 100).store 100 =
      (putApprovalRoute (some sequentialExpense) 1 "approve" none 5 false
        false false).stored :=
  bulk_refines_single (some sequentialExpense) 1 "approve" none 5
    { store := bulkStore, results := [], errors := [] } 100 (fun _ => false) (fun _ => false)
    false rfl

/-! ## The collection after an approval request -/
/-- The validators of `save()` refuse the document of every applied action whose value the
request checks admit: the acted entry carries `approve` or `reject`. -/
theorem validationFails_of_applied (expense e' : Expense) (userId : Nat) (action : String)
    (comments : Option String) (now : Nat)
    (haction : action = "approve" ∨ action = "reject")
    (h : putApproval (some expense) userId action comments now =
      { verdict := Verdict.applied, expense := some e' }) :
    validationFails (some e') = true := by
  obtain ⟨_, _, _, a, ha, hs⟩ := applied_final _ _ userId action comments now h
  have hnot : entryStatusEnum.contains a.status = false := by
    rw [hs]
    rcases haction with h | h <;> subst h <;> decide
  have henum : e'.enumsHold = false := by
    simp only [Expense.enumsHold, Bool.and_eq_false_iff]
    right
    rw [Bool.eq_false_iff]
    intro hall
    rw [List.all_eq_true] at hall
    have := hall a ha
    rw [hnot] at this
    exact absurd this (by decide)
  simp [validationFails, Expense.validates, henum]

/-- The verdict `applied` comes with a document. -/
theorem putApproval_applied (found : Option Expense) (userId : Nat) (action : String)
    (comments : Option String) (now : Nat)
    (h : (putApproval found userId action comments now).verdict = Verdict.applied) :
    ∃ expense e', found = some expense ∧
      putApproval (some expense) userId action comments now =
        { verdict := Verdict.applied, expense := some e' } := by
  cases found with
  | none => simp [putApproval] at h
  | some expense =>
    cases hf : expense.approvalFlow.find? (isUserApproval userId) with
    | none => simp [putApproval, hf] at h
    | some userApproval =>
      exact ⟨expense, applyAction expense userId userApproval action comments now, rfl,
        by simp [putApproval, hf]⟩

/-- What a request to the single route does: the reply by the request validation and the
verdict of the handler, and the stored expense, which is the one that was found. No request is
answered 200 and no request changes the stored expense. -/
theorem approvalRequest_eq (found : Option Expense) (userId : Nat) (action : String)
    (comments : Option String) (now : Nat) (notifyNextRejects notifyOwnerRejects : Bool) :
    approvalRequest found userId action comments now notifyNextRejects notifyOwnerRejects =
      { reply :=
          if validateApproval action comments then
            match (putApproval found userId action comments now).verdict with
            | Verdict.notFound => Reply.notFound
            | Verdict.notAuthorized => Reply.forbidden
            | Verdict.applied => Reply.serverError
          else Reply.badRequest
        stored := found } := by
  unfold approvalRequest
  by_cases hv : validateApproval action comments = true
  · rw [if_pos hv, if_pos hv, putApprovalRoute_eq]
    cases hverdict : (putApproval found userId action comments now).verdict with
    | notFound => rfl
    | notAuthorized => rfl
    | applied =>
      obtain ⟨expense, e', hfound, hput⟩ :=
        putApproval_applied found userId action comments now hverdict
      subst hfound
      have hfail := validationFails_of_applied expense e' userId action comments now
        (action_of_validateApproval action comments hv) hput
      rw [hput]
      simp [hfail]
  · rw [if_neg hv, if_neg hv]

/-- One pass of the bulk loop with an action value the request check admits: the pass pushes
exactly one error for the id, pushes nothing to `results` and leaves the collection as it
was. -/
theorem bulkPass_eq (userId : Nat) (action : String) (comments : Option String) (now : Nat)
    (notifyRejects : Nat → Bool) (s : BulkState) (expenseId : Nat)
    (haction : action = "approve" ∨ action = "reject") :
    bulkPass userId action comments now notifyRejects s expenseId =
      { s with
        errors := s.errors ++
          [(expenseId,
            match (bulkItem (s.store expenseId) userId action comments now).verdict with
            | Verdict.notFound => BulkError.expenseNotFound
            | Verdict.notAuthorized => BulkError.notAuthorized
            | Verdict.applied => BulkError.thrown)] } := by
  unfold bulkPass bulkStep
  cases hverdict : (bulkItem (s.store expenseId) userId action comments now).verdict with
  | notFound => simp only [hverdict]
  | notAuthorized => simp only [hverdict]
  | applied =>
    have hverdict' := hverdict
    rw [bulkItem_eq_putApproval] at hverdict'
    obtain ⟨expense, e', hfound, hput⟩ :=
      putApproval_applied (s.store expenseId) userId action comments now hverdict'
    have hfail := validationFails_of_applied expense e' userId action comments now haction hput
    have hdoc : (bulkItem (s.store expenseId) userId action comments now).expense = some e' := by
      rw [bulkItem_eq_putApproval, hfound, hput]
    simp only [hverdict, hdoc, hfail, if_true]

/-- The loop of the bulk handler with an action value the request check admits: every id gets
exactly one error, in the order of the ids, `results` stays empty and the collection is left
as it was. -/
theorem bulkPass_foldl (userId : Nat) (action : String) (comments : Option String) (now : Nat)
    (notifyRejects : Nat → Bool) (haction : action = "approve" ∨ action = "reject")
    (expenseIds : List Nat) (s : BulkState) :
    expenseIds.foldl (bulkPass userId action comments now notifyRejects) s =
      { s with
        errors := s.errors ++ expenseIds.map (fun expenseId =>
          (expenseId,
            match (bulkItem (s.store expenseId) userId action comments now).verdict with
            | Verdict.notFound => BulkError.expenseNotFound
            | Verdict.notAuthorized => BulkError.notAuthorized
            | Verdict.applied => BulkError.thrown)) } := by
  induction expenseIds generalizing s with
  | nil => simp
  | cons expenseId rest ih =>
    rw [List.foldl_cons, bulkPass_eq userId action comments now notifyRejects s expenseId
      haction, ih]
    simp

/-- What a request to the bulk handler does. A request that passes the two checks is answered
200 with `results` empty and one error per id; no request changes the collection. -/
theorem bulkRequest_eq (store : Nat → Option Expense) (expenseIds : List Nat) (userId : Nat)
    (action : String) (comments : Option String) (now : Nat) (notifyRejects : Nat → Bool) :
    (bulkRequest store expenseIds userId action comments now notifyRejects).state.store =
        store ∧
      (bulkRequest store expenseIds userId action comments now notifyRejects).state.results =
        [] ∧
      (bulkRequestValid expenseIds action = true →
        (bulkRequest store expenseIds userId action comments now notifyRejects).reply =
            Reply.ok ∧
          (bulkRequest store expenseIds userId action comments now notifyRejects).state.errors =
            expenseIds.map (fun expenseId =>
              (expenseId,
                match (bulkItem (store expenseId) userId action comments now).verdict with
                | Verdict.notFound => BulkError.expenseNotFound
                | Verdict.notAuthorized => BulkError.notAuthorized
                | Verdict.applied => BulkError.thrown))) := by
  unfold bulkRequest
  by_cases hv : bulkRequestValid expenseIds action = true
  · rw [if_pos hv, bulkPass_foldl userId action comments now notifyRejects
      (action_of_bulkRequestValid expenseIds action hv)]
    simp [hv]
  · rw [if_neg hv]
    simp [hv]

/-- The collection never holds another state of an expense than the one it started with. -/
theorem storedReachable_eq (start e : Expense) (h : StoredReachable start e) : e = start := by
  induction h with
  | refl => rfl
  | single userId action comments now notifyNextRejects notifyOwnerRejects _ hstep ih =>
    rw [approvalRequest_eq] at hstep
    simp only [Option.some.injEq] at hstep
    rw [← hstep, ih]
  | bulk store expenseIds expenseId userId action comments now notifyRejects _ hstore hstep ih =>
    rw [(bulkRequest_eq store expenseIds userId action comments now notifyRejects).1,
      hstore] at hstep
    simp only [Option.some.injEq] at hstep
    rw [← hstep, ih]

/-- No run of the single route gets `save()` to write. -/
theorem approvalWrite_eq_none (found : Option Expense) (userId : Nat) (action : String)
    (comments : Option String) (now : Nat) (notifyNextRejects : Bool) :
    approvalWrite found userId action comments now notifyNextRejects = none := by
  unfold approvalWrite
  by_cases hv : validateApproval action comments = true
  · rw [if_pos hv]
    cases found with
    | none => rfl
    | some expense =>
      cases hf : expense.approvalFlow.find? (isUserApproval userId) with
      | none => simp only [hf]
      | some userApproval =>
        have hput : putApproval (some expense) userId action comments now =
            { verdict := Verdict.applied
              expense := some (applyAction expense userId userApproval action comments now) } := by
          simp [putApproval, hf]
        have hfail := validationFails_of_applied expense _ userId action comments now
          (action_of_validateApproval action comments hv) hput
        simp [hf, hfail]
  · rw [if_neg hv]

/-- Two requests for the same expense, in either schedule and whatever a resolved `save()`
would write: each is answered as it is when it runs alone on the stored expense, and the
stored expense is left as it was. -/
theorem raceRequests_eq (merge : Option Expense → Expense → Option Expense)
    (overlapping : Bool) (found : Option Expense) (userId : Nat) (action₁ : String)
    (comments₁ : Option String) (now₁ : Nat) (action₂ : String) (comments₂ : Option String)
    (now₂ : Nat) :
    raceRequests merge overlapping found userId action₁ comments₁ now₁ action₂ comments₂ now₂ =
      { firstReply := (approvalRequest found userId action₁ comments₁ now₁ false false).reply
        secondReply := (approvalRequest found userId action₂ comments₂ now₂ false false).reply
        stored := found } := by
  simp [raceRequests, approvalWrite_eq_none]

/-! ## Claims on the stored expense: C3, C5, C6, C8, C20, C22, C26, C29 -/

/-- C3 (code bug). B, and likewise A, sends the reject action that request validation admits,
`reject`, on the routed chain `[A, B, C]`. The handler assigns status `rejected` and a null
`currentApprover` to the document in memory, but the acted entry carries the status `reject`,
which the schema does not list: `save()` refuses the document, the route answers 500 and the
stored expense is still `pending` with current approver A. -/
theorem reject_is_not_stored :
    validateApproval "reject" (some "no receipt") = true ∧
    (putApproval (some sequentialExpense) 2 "reject" (some "no receipt") 5).expense.map
        (fun e => (e.status, e.currentApprover, e.approvalFlow.map (fun a => a.status),
          e.validates)) =
      some ("rejected", none, ["pending", "reject", "pending"], false) ∧
    approvalRequest (some sequentialExpense) 2 "reject" (some "no receipt") 5 false false =
      { reply := Reply.serverError, stored := some sequentialExpense } ∧
    approvalRequest (some sequentialExpense) 1 "reject" (some "no receipt") 5 false false =
      { reply := Reply.serverError, stored := some sequentialExpense } ∧
    sequentialExpense.status = "pending" ∧
    sequentialExpense.currentApprover = some 1 := by
  decide

/-- C5 (code bug). B holds a pending entry of the routed chain `[A, B, C]` and sends the
validated action `approve`. The handler records the action on the entry of B in memory, but
`save()` refuses the document and the route answers 500: the stored chain is the chain that was
loaded, so no entry of it differs from its previous value. -/
theorem accepted_action_changes_no_entry :
    validateApproval "approve" (some "ok") = true ∧
    (sequentialExpense.approvalFlow.find? (isUserApproval 2)).map (fun a => a.order) = some 2 ∧
    (putApproval (some sequentialExpense) 2 "approve" (some "ok") 7).expense.map
        (fun e => e.approvalFlow.map (fun a => a.status)) =
      some ["pending", "approve", "pending"] ∧
    (approvalRequest (some sequentialExpense) 2 "approve" (some "ok") 7 false false).reply =
      Reply.serverError ∧
    (approvalRequest (some sequentialExpense) 2 "approve" (some "ok") 7 false false).stored.map
        (fun e => e.approvalFlow) =
      some sequentialExpense.approvalFlow ∧
    sequentialExpense.approvalFlow.map (fun a => a.status) =
      ["pending", "pending", "pending"] := by
  decide

/-- C6. For every expense whose status is not `pending` (approved, rejected, cancelled, or any
other value), every request to the single route and every request to the bulk handler leaves
the stored expense with the status and the chain it had, hence in a status that is not
`pending`, also when the caller still holds a pending chain entry. -/
theorem terminal_expense_unchanged (expense : Expense) (userId : Nat) (action : String)
    (comments : Option String) (now : Nat) (notifyNextRejects notifyOwnerRejects : Bool)
    (store : Nat → Option Expense) (expenseIds : List Nat) (expenseId : Nat)
    (notifyRejects : Nat → Bool)
    (hterminal : expense.status ≠ "pending") (hstore : store expenseId = some expense) :
    (∃ e', (approvalRequest (some expense) userId action comments now notifyNextRejects
          notifyOwnerRejects).stored = some e' ∧
        e'.status = expense.status ∧ e'.status ≠ "pending" ∧
        e'.approvalFlow = expense.approvalFlow) ∧
    (∃ e', (bulkRequest store expenseIds userId action comments now notifyRejects).state.store
          expenseId = some e' ∧
        e'.status = expense.status ∧ e'.status ≠ "pending" ∧
        e'.approvalFlow = expense.approvalFlow) := by
  constructor
  · exact ⟨expense, by rw [approvalRequest_eq], rfl, hterminal, rfl⟩
  · refine ⟨expense, ?_, rfl, hterminal, rfl⟩
    rw [(bulkRequest_eq store expenseIds userId action comments now notifyRejects).1, hstore]

/-- Witness of C6: the expense `terminalExpense` is `rejected`, it passes the validators of
the schema, and B still holds a pending entry in it; B sends `approve` to the single route and
to the bulk handler. -/
theorem terminal_expense_unchanged_witness :
    terminalExpense.validates = true ∧
    (terminalExpense.approvalFlow.find? (isUserApproval 2)).isSome = true ∧
    (∃ e', (approvalRequest (some terminalExpense) 2 "approve" none 9 false false).stored =
          some e' ∧
        e'.status = terminalExpense.status ∧ e'.status ≠ "pending" ∧
        e'.approvalFlow = terminalExpense.approvalFlow) ∧
    (∃ e', (bulkRequest (fun id => if id = 100 then some terminalExpense else none) [100] 2
          "approve" none 9 (fun _ => false)).state.store 100 = some e' ∧
        e'.status = terminalExpense.status ∧ e'.status ≠ "pending" ∧
        e'.approvalFlow = terminalExpense.approvalFlow) :=
  ⟨by decide, by decide,
    terminal_expense_unchanged terminalExpense 2 "approve" none 9 false false
      (fun id => if id = 100 then some terminalExpense else none) [100] 100 (fun _ => false)
      (by decide) rfl⟩

/-- C8. In every state of an expense that the collection holds after creation routing and any
sequence of approval requests (single or bulk, validated or not), the expense status is
`rejected` if and only if at least one chain entry has status `rejected` (`isRejected`). -/
theorem rejected_iff_rejected_entry (employeeId companyId : Nat) (category : String)
    (amount : ℚ) (currency baseCurrency : String) (conversion : Conversion)
    (stored : List ApprovalRule) (autoApprovalLimit : ℚ) (e : Expense)
    (hreach : StoredReachable (postExpense employeeId companyId category amount currency
      baseCurrency conversion stored autoApprovalLimit) e) :
    e.status = "rejected" ↔ e.isRejected = true := by
  rw [storedReachable_eq _ _ hreach]
  rcases routeExpense_create employeeId companyId category amount currency baseCurrency
    conversion (applicableApprovers (findActiveRules stored companyId)
      (Expense.create employeeId companyId category amount currency baseCurrency
        conversion)) autoApprovalLimit with ⟨hnil, _, heq⟩ | ⟨hnil, _, heq⟩ |
    ⟨first, rest, hcons, heq⟩
  · simp only [postExpense, heq]
    simp [Expense.isRejected, Expense.create]
  · simp only [postExpense, heq]
    simp [Expense.isRejected, Expense.create]
  · simp only [postExpense, heq]
    simp only [Expense.isRejected, Expense.create]
    constructor
    · intro h
      exact absurd h (by decide)
    · intro h
      rw [List.any_eq_true] at h
      obtain ⟨a, ha, hs⟩ := h
      rw [List.mem_mapIdx] at ha
      obtain ⟨i, hi, rfl⟩ := ha
      simp at hs

/-- Witness of C8: the routed `sequentialExpense` after A sent `reject` to the single route. -/
theorem rejected_iff_rejected_entry_witness :
    sequentialExpense.status = "rejected" ↔ sequentialExpense.isRejected = true :=
  rejected_iff_rejected_entry 9 7 "Travel" 150 "USD" "USD" { convertedAmount := 150, rate := 1 }
    [ruleABC] 100 sequentialExpense
    (StoredReachable.single 1 "reject" none 5 false false StoredReachable.refl (by decide))

/-- C20 (code bug). The bulk handler gets the ids `[100, 200]` and the action `approve` from
A: 100 is the id of `sequentialExpense`, on which A holds a pending entry, and 200 is the id
of no expense. The id 200 gets the error `Expense not found` and the loop goes on, but the id
100 gets no success: `save()` refuses its document, the `catch` pushes the id to `errors`, and
`results` is empty. -/
theorem bulk_valid_id_is_an_error :
    bulkRequestValid [100, 200] "approve" = true ∧
    (bulkStore 100).map (fun e => (e.approvalFlow.find? (isUserApproval 1)).isSome) =
      some true ∧
    bulkStore 200 = none ∧
    (bulkRequest bulkStore [100, 200] 1 "approve" none 5 (fun _ => false)).reply = Reply.ok ∧
    (bulkRequest bulkStore [100, 200] 1 "approve" none 5 (fun _ => false)).state.results = [] ∧
    (bulkRequest bulkStore [100, 200] 1 "approve" none 5 (fun _ => false)).state.errors =
      [(100, BulkError.thrown), (200, BulkError.expenseNotFound)] ∧
    (bulkRequest bulkStore [200, 100] 1 "approve" none 5 (fun _ => false)).state.errors =
      [(200, BulkError.expenseNotFound), (100, BulkError.thrown)] ∧
    (bulkRequest bulkStore [100, 200] 1 "approve" none 5 (fun _ => false)).state.store 100 =
      some sequentialExpense := by
  decide

/-- C22 (code bug). A sends `approve` on `sequentialExpense` while `Notification.create`
rejects. The single route answers 500 and the bulk handler pushes the id to `errors`, and the
stored expense is the one that was loaded: the transition is not persisted and no success is
reported. The same happens when the notification could be created, because `save()` refuses
the document before any notification is attempted. -/
theorem approval_fails_before_notification :
    approvalRequest (some sequentialExpense) 1 "approve" none 5 false true =
      { reply := Reply.serverError, stored := some sequentialExpense } ∧
    approvalRequest (some sequentialExpense) 1 "approve" none 5 false false =
      { reply := Reply.serverError, stored := some sequentialExpense } ∧
    (bulkRequest bulkStore [100] 1 "approve" none 5 (fun _ => true)).state.results = [] ∧
    (bulkRequest bulkStore [100] 1 "approve" none 5 (fun _ => true)).state.errors =
      [(100, BulkError.thrown)] ∧
    (bulkRequest bulkStore [100] 1 "approve" none 5 (fun _ => true)).state.store 100 =
      some sequentialExpense ∧
    (bulkRequest bulkStore [100] 1 "approve" none 5 (fun _ => false)).state.errors =
      [(100, BulkError.thrown)] := by
  decide

/-- C26 (code bug). A submits `approve` twice on `sequentialExpense`. In either schedule, and
whatever a resolved `save()` would write, both requests are answered 500: none returns success,
none is answered not-authorized, and the stored chain reflects no transition. -/
theorem double_submit_both_fail (merge : Option Expense → Expense → Option Expense)
    (overlapping : Bool) :
    raceRequests merge overlapping (some sequentialExpense) 1 "approve" none 5 "approve" none
        6 =
      { firstReply := Reply.serverError
        secondReply := Reply.serverError
        stored := some sequentialExpense } := by
  rw [raceRequests_eq]
  decide

/-- C29 (code bug). A holds a pending entry of `sequentialExpense` and sends the validated
action `approve` to the single route and to the bulk handler. `remainingApprovals` is empty
and the handler assigns status `rejected` and a null `currentApprover` in memory, but `save()`
refuses the document: the stored expense keeps the status `pending` and the current
approver A. -/
theorem applied_action_is_not_stored :
    validateApproval "approve" none = true ∧
    (putApproval (some sequentialExpense) 1 "approve" none 5).expense.map
        (fun e => (e.status, e.currentApprover,
          e.approvalFlow.filter
            (fun approval => approval.status == "pending" && approval.isRequired))) =
      some ("rejected", none, []) ∧
    approvalRequest (some sequentialExpense) 1 "approve" none 5 false false =
      { reply := Reply.serverError, stored := some sequentialExpense } ∧
    (bulkRequest bulkStore [100] 1 "approve" none 5 (fun _ => false)).state.results = [] ∧
    (bulkRequest bulkStore [100] 1 "approve" none 5 (fun _ => false)).state.store 100 =
      some sequentialExpense ∧
    sequentialExpense.status = "pending" ∧
    sequentialExpense.currentApprover = some 1 := by
  decide

/-! ## Currency conversion: claim C23 -/

/-- With the rate source unavailable and nothing cached for the base currency,
`getExchangeRates` returns the built-in table and leaves the module state as it was. -/
theorem getExchangeRates_fallback (fetch : String → Option RateTable) (now : Nat)
    (cache : RateCache) (baseCurrency : String)
    (hfetch : fetch baseCurrency = none)
    (hcache : cache.exchangeRateCache.lookup baseCurrency = none) :
    getExchangeRates fetch now cache baseCurrency = (fallbackRates, cache) := by
  unfold getExchangeRates
  simp only [hcache, hfetch]
  split <;> simp_all

/-- C23 (counterexample). The rate source is unavailable and nothing is cached: the
conversion of 100 EUR to USD does not fail but returns the rate 1 of the built-in table, and
the expense is created (201) and stored with that rate. -/
theorem offline_conversion_uses_fallback :
    offline "EUR" = none ∧
    emptyCache.exchangeRateCache.lookup "EUR" = none ∧
    (convertCurrency wholeProduct offline 0 emptyCache 100 "EUR" "USD").1.map
      (fun c => c.rate) = some 1 ∧
    (postExpenseRequest wholeProduct offline 0 emptyCache (some sampleCompany) 9 7 "Travel" 100
      "EUR" [ruleABC] false false false).reply = Reply.ok ∧
    (postExpenseRequest wholeProduct offline 0 emptyCache (some sampleCompany) 9 7 "Travel" 100
      "EUR" [ruleABC] false false false).stored.map (fun e => (e.status, e.exchangeRate)) =
      some ("pending", 1) := by
  decide

/-- C23 (amended). When the rate fetch fails and nothing is cached for the source currency,
`convertCurrency` between two different currencies converts with the rate the built-in
fallback table holds for the target currency; it fails only when that table has no non-zero
rate for the target currency. When it fails, expense creation answers 500 and creates no
expense; an expense that is created carries the rate of the fallback table and the amount
converted with it. -/
theorem conversion_with_fallback (roundedProduct : ℚ → ℚ → ℚ)
    (fetch : String → Option RateTable) (now : Nat) (cache : RateCache) (company : Company)
    (employeeId companyId : Nat) (category : String) (amount : ℚ) (currency : String)
    (stored : List ApprovalRule) (createRejects saveRejects notifyRejects : Bool)
    (hdifferent : currency ≠ company.currency)
    (hfetch : fetch currency = none)
    (hcache : cache.exchangeRateCache.lookup currency = none) :
    (convertCurrency roundedProduct fetch now cache amount currency company.currency).1 =
      (fallbackRates.lookup company.currency).bind (fun rate =>
        if rate = 0 then none
        else some { convertedAmount := roundedProduct amount rate, rate := rate }) ∧
    ((convertCurrency roundedProduct fetch now cache amount currency company.currency).1 =
        none →
      postExpenseRequest roundedProduct fetch now cache (some company) employeeId companyId
          category amount currency stored createRejects saveRejects notifyRejects =
        { reply := Reply.serverError, stored := none }) ∧
    (∀ e : Expense,
      (postExpenseRequest roundedProduct fetch now cache (some company) employeeId companyId
          category amount currency stored createRejects saveRejects notifyRejects).stored =
        some e →
      ∃ rate : ℚ, fallbackRates.lookup company.currency = some rate ∧ rate ≠ 0 ∧
        e.exchangeRate = rate ∧ e.convertedAmount = roundedProduct amount rate) := by
  have hconv : (convertCurrency roundedProduct fetch now cache amount currency
      company.currency).1 =
      (fallbackRates.lookup company.currency).bind (fun rate =>
        if rate = 0 then none
        else some { convertedAmount := roundedProduct amount rate, rate := rate }) := by
    unfold convertCurrency
    have hne : (currency == company.currency) = false := by simpa using hdifferent
    simp only [hne, Bool.false_eq_true, ↓reduceIte,
      getExchangeRates_fallback fetch now cache currency hfetch hcache]
    cases hl : fallbackRates.lookup company.currency with
    | none => simp
    | some rate =>
      by_cases hz : rate = 0
      · simp [hz]
      · simp [hz]
  refine ⟨hconv, ?_, ?_⟩
  · intro hnone
    simp only [postExpenseRequest, hnone]
  · intro e he
    cases hl : fallbackRates.lookup company.currency with
    | none =>
      rw [hl] at hconv
      simp only [postExpenseRequest, hconv, Option.none_bind] at he
      simp at he
    | some rate =>
      rw [hl] at hconv
      by_cases hz : rate = 0
      · simp only [postExpenseRequest, hconv, Option.some_bind, hz, if_true] at he
        simp at he
      · simp only [Option.some_bind, if_neg hz] at hconv
        refine ⟨rate, rfl, hz, ?_⟩
        simp only [postExpenseRequest, hconv] at he
        split at he
        · simp at he
        · split at he
          · simp only [Option.some.injEq] at he
            subst he
            simp [Expense.create]
          · have hrouted : ∀ approvers limit,
                (routeExpense (Expense.create employeeId companyId category amount currency
                  company.currency { convertedAmount := roundedProduct amount rate, rate := rate })
                  { convertedAmount := roundedProduct amount rate, rate := rate } approvers
                  limit).exchangeRate = rate ∧
                (routeExpense (Expense.create employeeId companyId category amount currency
                  company.currency { convertedAmount := roundedProduct amount rate, rate := rate })
                  { convertedAmount := roundedProduct amount rate, rate := rate } approvers
                  limit).convertedAmount = roundedProduct amount rate := by
              intro approvers limit
              unfold routeExpense
              split
              · split <;> exact ⟨rfl, rfl⟩
              · exact ⟨rfl, rfl⟩
            split at he
            · simp only [Option.some.injEq] at he
              subst he
              exact hrouted _ _
            · simp only [Option.some.injEq] at he
              subst he
              exact hrouted _ _

/-- Witness of C23 (amended): 100 EUR into USD with the rate source unavailable. -/
theorem conversion_with_fallback_witness :
    (convertCurrency wholeProduct offline 0 emptyCache 100 "EUR" sampleCompany.currency).1 =
      (fallbackRates.lookup sampleCompany.currency).bind (fun rate =>
        if rate = 0 then none
        else some { convertedAmount := wholeProduct 100 rate, rate := rate }) ∧
    ((convertCurrency wholeProduct offline 0 emptyCache 100 "EUR" sampleCompany.currency).1 =
        none →
      postExpenseRequest wholeProduct offline 0 emptyCache (some sampleCompany) 9 7 "Travel" 100
          "EUR" [ruleABC] false false false =
        { reply := Reply.serverError, stored := none }) ∧
    (∀ e : Expense,
      (postExpenseRequest wholeProduct offline 0 emptyCache (some sampleCompany) 9 7 "Travel" 100
          "EUR" [ruleABC] false false false).stored = some e →
      ∃ rate : ℚ, fallbackRates.lookup sampleCompany.currency = some rate ∧ rate ≠ 0 ∧
        e.exchangeRate = rate ∧ e.convertedAmount = wholeProduct 100 rate) :=
  conversion_with_fallback wholeProduct offline 0 emptyCache sampleCompany 9 7 "Travel" 100
    "EUR" [ruleABC] false false false (by decide) rfl rfl

/-! ## Update and delete: claims C24 and C25 -/

/-- An approval action leaves `convertedAmount` and `exchangeRate` as they were. -/
theorem putApproval_keeps_conversion (expense : Expense) (userId : Nat) (action : String)
    (comments : Option String) (now : Nat) :
    (putApproval (some expense) userId action comments now).expense.map
        (fun e => (e.convertedAmount, e.exchangeRate)) =
      some (expense.convertedAmount, expense.exchangeRate) := by
  simp only [putApproval]
  cases h : expense.approvalFlow.find? (isUserApproval userId) with
  | none => rfl
  | some userApproval => simp [applyAction_eq]

/-- C24 (counterexample). An admin of company 7 has access to the pending expense
`sequentialExpense` (converted amount 150) and sends an update of the amount to 500: the
handler answers 200 and the stored `convertedAmount` is 500. -/
theorem admin_update_recomputes_conversion :
    sequentialExpense.status = "pending" ∧
    sequentialExpense.convertedAmount = 150 ∧
    authorizeExpenseAccess adminUser (some sequentialExpense) = Reply.ok ∧
    (putExpense wholeProduct offline 0 emptyCache sequentialExpense adminUser.role amountUpdate
      (some sampleCompany) false).reply = Reply.ok ∧
    (putExpense wholeProduct offline 0 emptyCache sequentialExpense adminUser.role amountUpdate
      (some sampleCompany) false).stored.map (fun e => (e.amount, e.convertedAmount)) =
      some (500, 500) := by
  decide

/-- C24 (amended). For every expense whose status is not `draft`: no request to the approval
routes (single or bulk) changes the stored expense, and the document an approval handler
assigns keeps `convertedAmount` and `exchangeRate`; the update handler answers 400 and leaves
the expense unchanged for every caller whose role is not `admin`; for a caller whose role is
`admin` it recomputes `convertedAmount` and `exchangeRate` whenever the body carries an amount
or a currency and the conversion and `save()` succeed, and leaves the two fields as they were
when the body carries neither. -/
theorem conversion_fixed_unless_admin (expense : Expense)
    (hstatus : expense.status ≠ "draft") :
    (∀ (userId : Nat) (action : String) (comments : Option String) (now : Nat)
        (notifyNextRejects notifyOwnerRejects : Bool),
      (approvalRequest (some expense) userId action comments now notifyNextRejects
        notifyOwnerRejects).stored = some expense) ∧
    (∀ (store : Nat → Option Expense) (expenseIds : List Nat) (expenseId userId : Nat)
        (action : String) (comments : Option String) (now : Nat) (notifyRejects : Nat → Bool),
      store expenseId = some expense →
      (bulkRequest store expenseIds userId action comments now notifyRejects).state.store
        expenseId = some expense) ∧
    (∀ (userId : Nat) (action : String) (comments : Option String) (now : Nat),
      (putApproval (some expense) userId action comments now).expense.map
          (fun e => (e.convertedAmount, e.exchangeRate)) =
        some (expense.convertedAmount, expense.exchangeRate) ∧
      (bulkItem (some expense) userId action comments now).expense.map
          (fun e => (e.convertedAmount, e.exchangeRate)) =
        some (expense.convertedAmount, expense.exchangeRate)) ∧
    (∀ (roundedProduct : ℚ → ℚ → ℚ) (fetch : String → Option RateTable) (now : Nat)
        (cache : RateCache) (role : String) (body : ExpenseUpdate) (company : Option Company)
        (saveRejects : Bool), role ≠ "admin" →
      putExpense roundedProduct fetch now cache expense role body company saveRejects =
        { reply := Reply.badRequest, stored := some expense }) ∧
    (∀ (roundedProduct : ℚ → ℚ → ℚ) (fetch : String → Option RateTable) (now : Nat)
        (cache : RateCache) (body : ExpenseUpdate) (company : Company)
        (conversion : Conversion),
      (truthyNumber body.amount || truthyString body.currency) = true →
      (convertCurrency roundedProduct fetch now cache (applyUpdate expense body).amount
        (applyUpdate expense body).currency company.currency).1 = some conversion →
      Expense.validates
        { applyUpdate expense body with
          convertedAmount := conversion.convertedAmount
          exchangeRate := conversion.rate } = true →
      putExpense roundedProduct fetch now cache expense "admin" body (some company) false =
        { reply := Reply.ok
          stored := some
            { applyUpdate expense body with
              convertedAmount := conversion.convertedAmount
              exchangeRate := conversion.rate } }) ∧
    (∀ (roundedProduct : ℚ → ℚ → ℚ) (fetch : String → Option RateTable) (now : Nat)
        (cache : RateCache) (body : ExpenseUpdate) (company : Option Company)
        (saveRejects : Bool) (e : Expense),
      (truthyNumber body.amount || truthyString body.currency) = false →
      (putExpense roundedProduct fetch now cache expense "admin" body company
        saveRejects).stored = some e →
      e.convertedAmount = expense.convertedAmount ∧ e.exchangeRate = expense.exchangeRate) := by
  refine ⟨?_, ?_, ?_, ?_, ?_, ?_⟩
  · intro userId action comments now notifyNextRejects notifyOwnerRejects
    rw [approvalRequest_eq]
  · intro store expenseIds expenseId userId action comments now notifyRejects hstore
    rw [(bulkRequest_eq store expenseIds userId action comments now notifyRejects).1, hstore]
  · intro userId action comments now
    rw [bulkItem_eq_putApproval]
    exact ⟨putApproval_keeps_conversion expense userId action comments now,
      putApproval_keeps_conversion expense userId action comments now⟩
  · intro roundedProduct fetch now cache role body company saveRejects hrole
    simp [putExpense, hstatus, hrole]
  · intro roundedProduct fetch now cache body company conversion hbody hconv hvalid
    simp only [putExpense, hbody, hconv, hvalid]
    simp
  · intro roundedProduct fetch now cache body company saveRejects e hbody he
    simp only [putExpense, hbody] at he
    simp only [bne_self_eq_false, Bool.and_false, Bool.false_eq_true, ↓reduceIte] at he
    split at he
    · simp only [Option.some.injEq] at he
      subst he
      exact ⟨rfl, rfl⟩
    · simp only [Option.some.injEq] at he
      subst he
      exact ⟨rfl, rfl⟩

/-- Witness of C24 (amended): the pending expense `sequentialExpense`, updated by a manager
and by an admin. -/
theorem conversion_fixed_unless_admin_witness :
    putExpense wholeProduct offline 0 emptyCache sequentialExpense "manager" amountUpdate
        (some sampleCompany) false =
      { reply := Reply.badRequest, stored := some sequentialExpense } ∧
    putExpense wholeProduct offline 0 emptyCache sequentialExpense "admin" amountUpdate
        (some sampleCompany) false =
      { reply := Reply.ok
        stored := some
          { applyUpdate sequentialExpense amountUpdate with
            convertedAmount := 500
            exchangeRate := 1 } } :=
  ⟨(conversion_fixed_unless_admin sequentialExpense (by decide)).2.2.2.1 wholeProduct offline 0
      emptyCache "manager" amountUpdate (some sampleCompany) false (by decide),
    (conversion_fixed_unless_admin sequentialExpense (by decide)).2.2.2.2.1 wholeProduct offline
      0 emptyCache amountUpdate sampleCompany { convertedAmount := 500, rate := 1 } (by decide)
      (by decide) (by decide)⟩

/-- C25 (counterexample). An admin of company 7 has access to the pending expense
`sequentialExpense`; the delete handler answers 200 and the expense is gone. -/
theorem admin_deletes_pending_expense :
    sequentialExpense.status = "pending" ∧
    authorizeExpenseAccess adminUser (some sequentialExpense) = Reply.ok ∧
    deleteExpense sequentialExpense adminUser.role = { reply := Reply.ok, stored := none } := by
  decide

/-- C25 (amended). The delete handler removes an expense, with its chain, if and only if the
expense status is `draft` or the role of the caller is `admin`; in every other case it
answers 400 and the expense is left in place. -/
theorem delete_iff_draft_or_admin (expense : Expense) (role : String) :
    ((deleteExpense expense role).stored = none ↔
      (expense.status = "draft" ∨ role = "admin")) ∧
    (¬ (expense.status = "draft" ∨ role = "admin") →
      deleteExpense expense role = { reply := Reply.badRequest, stored := some expense }) := by
  by_cases hs : expense.status = "draft"
  · simp [deleteExpense, hs]
  · by_cases hr : role = "admin"
    · simp [deleteExpense, hr]
    · simp [deleteExpense, hs, hr]

/-! ## Access and listing: claims C27 and C28 -/

/-- The three grants of `authorizeExpenseAccess` as one condition. -/
theorem authorizeExpenseAccess_some (user : User) (expense : Expense) :
    authorizeExpenseAccess user (some expense) =
      if ((user.role = "admin" ∧ user.companyId = expense.companyId) ∨
          (user.role = "manager" ∧
            (expense.employeeId = user.id ∨
              ∃ approval ∈ expense.approvalFlow, approval.approverId = user.id)) ∨
          (user.role = "employee" ∧ expense.employeeId = user.id))
      then Reply.ok else Reply.forbidden := by
  have e1 : (user.role == "admin" && user.companyId == expense.companyId) = true ↔
      (user.role = "admin" ∧ user.companyId = expense.companyId) := by simp
  have e2 : (user.role == "manager" &&
      (expense.approvalFlow.any (fun approval => approval.approverId == user.id) ||
        expense.employeeId == user.id)) = true ↔
      (user.role = "manager" ∧
        (expense.employeeId = user.id ∨
          ∃ approval ∈ expense.approvalFlow, approval.approverId = user.id)) := by
    simp only [Bool.and_eq_true, beq_iff_eq, Bool.or_eq_true, List.any_eq_true]
    constructor
    · rintro ⟨hr, ho⟩
      exact ⟨hr, ho.symm⟩
    · rintro ⟨hr, ho⟩
      exact ⟨hr, ho.symm⟩
  have e3 : (user.role == "employee" && expense.employeeId == user.id) = true ↔
      (user.role = "employee" ∧ expense.employeeId = user.id) := by simp
  unfold authorizeExpenseAccess
  simp only []
  by_cases h1 : user.role = "admin" ∧ user.companyId = expense.companyId
  · rw [if_pos (e1.2 h1), if_pos (Or.inl h1)]
  · rw [if_neg (fun h => h1 (e1.1 h))]
    by_cases h2 : user.role = "manager" ∧
        (expense.employeeId = user.id ∨
          ∃ approval ∈ expense.approvalFlow, approval.approverId = user.id)
    · rw [if_pos (e2.2 h2), if_pos (Or.inr (Or.inl h2))]
    · rw [if_neg (fun h => h2 (e2.1 h))]
      by_cases h3 : user.role = "employee" ∧ expense.employeeId = user.id
      · rw [if_pos (e3.2 h3), if_pos (Or.inr (Or.inr h3))]
      · rw [if_neg (fun h => h3 (e3.1 h)), if_neg]
        rintro (h | h | h)
        · exact h1 h
        · exact h2 h
        · exact h3 h

/-- C27. `authorizeExpenseAccess` lets the request through if and only if the expense exists
and the caller is an admin of the company of the expense, or a manager who owns the expense or
stands as `approverId` in its chain, or an employee who owns the expense; it answers 404 if
and only if the expense is missing, and 403 in every other case. -/
theorem authorizeExpenseAccess_iff (user : User) (found : Option Expense) :
    (authorizeExpenseAccess user found = Reply.ok ↔
      ∃ expense, found = some expense ∧
        ((user.role = "admin" ∧ user.companyId = expense.companyId) ∨
          (user.role = "manager" ∧
            (expense.employeeId = user.id ∨
              ∃ approval ∈ expense.approvalFlow, approval.approverId = user.id)) ∨
          (user.role = "employee" ∧ expense.employeeId = user.id))) ∧
    (authorizeExpenseAccess user found = Reply.notFound ↔ found = none) ∧
    (authorizeExpenseAccess user found = Reply.forbidden ↔
      ∃ expense, found = some expense ∧
        ¬ ((user.role = "admin" ∧ user.companyId = expense.companyId) ∨
          (user.role = "manager" ∧
            (expense.employeeId = user.id ∨
              ∃ approval ∈ expense.approvalFlow, approval.approverId = user.id)) ∨
          (user.role = "employee" ∧ expense.employeeId = user.id))) := by
  cases found with
  | none => simp [authorizeExpenseAccess]
  | some expense =>
    rw [authorizeExpenseAccess_some]
    by_cases hgrant : ((user.role = "admin" ∧ user.companyId = expense.companyId) ∨
        (user.role = "manager" ∧
          (expense.employeeId = user.id ∨
            ∃ approval ∈ expense.approvalFlow, approval.approverId = user.id)) ∨
        (user.role = "employee" ∧ expense.employeeId = user.id))
    · rw [if_pos hgrant]
      refine ⟨⟨fun _ => ⟨expense, rfl, hgrant⟩, fun _ => rfl⟩, ?_, ?_⟩
      · constructor
        · intro h
          exact absurd h (by decide)
        · intro h
          exact absurd h (by simp)
      · constructor
        · intro h
          exact absurd h (by decide)
        · rintro ⟨e, he, hno⟩
          cases he
          exact absurd hgrant hno
    · rw [if_neg hgrant]
      refine ⟨⟨?_, ?_⟩, ⟨?_, ?_⟩, ⟨fun _ => ⟨expense, rfl, hgrant⟩, fun _ => rfl⟩⟩
      · intro h
        exact absurd h (by decide)
      · rintro ⟨e, he, hyes⟩
        cases he
        exact absurd hyes hgrant
      · intro h
        exact absurd h (by decide)
      · intro h
        exact absurd h (by simp)

/-- Without a search term the filter built for a manager only selects expenses that the
manager owns or stands in the chain of, whatever the other query parameters are. -/
theorem manager_filter_without_search (regexTest : String → String → Bool) (user : User)
    (query : ListQuery) (doc : ListedExpense)
    (hrole : user.role = "manager") (hsearch : truthyString query.search = false)
    (hsel : (buildFilter user query).selects regexTest doc = true) :
    doc.expense.employeeId = user.id ∨
      ∃ approval ∈ doc.expense.approvalFlow, approval.approverId = user.id := by
  have hor : (buildFilter user query).orClauses =
      some [OrClause.employeeId user.id, OrClause.approverId user.id] := by
    have hne : (user.role == "employee") = false := by
      rw [hrole]
      decide
    unfold buildFilter
    simp only [hne, hrole, beq_self_eq_true, Bool.false_eq_true, ↓reduceIte]
    cases hq : query.search with
    | none =>
      simp only []
      split <;> split <;> split <;> split <;> rfl
    | some text =>
      have ht : (text != "") = false := by
        simpa [truthyString, hq] using hsearch
      simp only [ht, Bool.false_eq_true, ↓reduceIte]
      split <;> split <;> split <;> split <;> rfl
  simp only [ExpenseFilter.selects, hor, Bool.and_eq_true] at hsel
  have hany := hsel.1.1.1.2
  simp only [List.any_cons, List.any_nil, Bool.or_false, Bool.or_eq_true, OrClause.holds,
    beq_iff_eq, List.any_eq_true] at hany
  rcases hany with h | ⟨a, ha, hid⟩
  · exact Or.inl h
  · exact Or.inr ⟨a, ha, hid⟩

/-- C28 (code bug). The manager 60 of company 7 neither owns the expense `Taxi` of employee 9
nor stands in its chain. Without a search term the filter does not select the expense; with
the search term `Taxi` the `$or` of the filter holds the two search alternatives only and the
filter selects the expense. -/
theorem search_drops_manager_restriction :
    otherManager.role = "manager" ∧
    taxiExpense.expense.employeeId ≠ otherManager.id ∧
    (∀ approval ∈ taxiExpense.expense.approvalFlow, approval.approverId ≠ otherManager.id) ∧
    (buildFilter otherManager { taxiSearch with search := none }).selects literalTest
      taxiExpense = false ∧
    (buildFilter otherManager taxiSearch).orClauses =
      some [OrClause.title "Taxi", OrClause.description "Taxi"] ∧
    (buildFilter otherManager taxiSearch).selects literalTest taxiExpense = true := by
  decide

/-! ## The order values of a routed chain: claim C30 -/

/-- The chain built from a list of approvers carries the orders 1, 2, ... by position. -/
theorem mapIdx_order (approvers : List Approver) :
    (approvers.mapIdx (fun index approver =>
        ({ approverId := approver.userId, order := index + 1,
           status := if index == 0 then "pending" else "pending",
           comments := none, actionDate := none } : ApprovalEntry))).map
      (fun a => a.order) = List.range' 1 approvers.length := by
  apply List.ext_getElem
  · simp
  · intro i h1 h2
    simp [List.getElem_range']
    omega

/-- C30. For every chain that creation routing builds, from the `n` approvers the rule loop
derived, the chain has `n` entries and their `order` values are exactly 1, 2, ..., `n` by
chain position, strictly increasing, whatever `order` values the approvers of the rule
carry. -/
theorem chain_order_is_position (employeeId companyId : Nat) (category : String)
    (amount : ℚ) (currency baseCurrency : String) (conversion : Conversion)
    (stored : List ApprovalRule) (autoApprovalLimit : ℚ) :
    (postExpense employeeId companyId category amount currency baseCurrency conversion stored
        autoApprovalLimit).approvalFlow.length =
      (applicableApprovers (findActiveRules stored companyId)
        (Expense.create employeeId companyId category amount currency baseCurrency
          conversion)).length ∧
    (postExpense employeeId companyId category amount currency baseCurrency conversion stored
        autoApprovalLimit).approvalFlow.map (fun a => a.order) =
      List.range' 1 (applicableApprovers (findActiveRules stored companyId)
        (Expense.create employeeId companyId category amount currency baseCurrency
          conversion)).length ∧
    List.Pairwise (fun m n => m < n)
      ((postExpense employeeId companyId category amount currency baseCurrency conversion
        stored autoApprovalLimit).approvalFlow.map (fun a => a.order)) := by
  have horder : (postExpense employeeId companyId category amount currency baseCurrency
        conversion stored autoApprovalLimit).approvalFlow.map (fun a => a.order) =
      List.range' 1 (applicableApprovers (findActiveRules stored companyId)
        (Expense.create employeeId companyId category amount currency baseCurrency
          conversion)).length := by
    simp only [postExpense]
    generalize applicableApprovers (findActiveRules stored companyId)
      (Expense.create employeeId companyId category amount currency baseCurrency
        conversion) = approvers
    cases approvers with
    | nil =>
      by_cases hl : conversion.convertedAmount ≤ autoApprovalLimit
      · simp [routeExpense, hl, Expense.create]
      · simp [routeExpense, hl, Expense.create]
    | cons first rest =>
      have hne : ((first :: rest).length == 0) = false := by simp
      simp only [routeExpense, hne, Bool.false_eq_true, ↓reduceIte]
      exact mapIdx_order (first :: rest)
  refine ⟨?_, horder, ?_⟩
  · have := congrArg List.length horder
    simpa using this
  · rw [horder]
    exact List.pairwise_lt_range' 1 _

/-- The chain routed from the approvers stored as `C:3, A:1, B:2` is A, B, C with the orders
1, 2, 3; the chain routed from the percentage rule keeps the stored order of the approvers
and carries the orders 1, 2, 3 as well. -/
theorem shuffled_chain_orders :
    (postExpense 9 7 "Travel" 150 "USD" "USD" { convertedAmount := 150, rate := 1 }
      [shuffledRule] 100).approvalFlow.map (fun a => (a.approverId, a.order)) =
      [(1, 1), (2, 2), (3, 3)] ∧
    (postExpense 9 7 "Travel" 150 "USD" "USD" { convertedAmount := 150, rate := 1 }
      [{ shuffledRule with ruleType := "percentage" }] 100).approvalFlow.map
        (fun a => (a.approverId, a.order)) = [(3, 1), (1, 2), (2, 3)] := by
  decide

end ExpenseManagement
